import Mathlib

/-!
Shallow embedding of the detective-cli evidence/inference core
(pkg/models/models.go, internal/scanner/scanner.go, internal/git/git.go,
internal/inference) together with proofs about the spec's claims.

Modelling conventions, used consistently below:
* Go `int`/`int64` values are modelled as `Int` (no overflow is relevant to
  any claim: all arithmetic stays far below 2^63).
* Go `float64` values (`Percent`, `CommitMessageQuality`, `AveragePerWeek`)
  are modelled as exact rationals `ℚ`; the only operations performed on them
  in the source are division, multiplication by constants and comparisons.
* Go `time.Time` values are modelled as `Option Int` (unix seconds), with
  `none` playing the role of the zero `time.Time` (`IsZero`).
* Go maps that are only ever read back by key (`FileTypes`) are modelled as
  total functions with the Go zero default.  Go maps that are *iterated*
  (the marker/secret pattern tables, the contributor map) are modelled by
  explicit lists; where the source's behaviour depends on Go's unspecified
  map iteration order, the order is an explicit parameter and theorems
  quantify over it.
-/

namespace Detective

/-- Severity is an `int` in the source (`type Severity int`, constants by
`iota`).  It is kept as `Int` so that the `switch`/`==` logic translates
verbatim. -/
abbrev Severity := Int

def SeverityLow : Severity := 0

def SeverityMedium : Severity := 1

def SeverityHigh : Severity := 2

def SeverityCritical : Severity := 3

/-- FindingCategory is a string type in the source (`type FindingCategory
string`). -/
abbrev FindingCategory := String

def FindingCodeQuality : FindingCategory := "code-quality"

def FindingSecurity : FindingCategory := "security"

def FindingPerformance : FindingCategory := "performance"

def FindingMaintainability : FindingCategory := "maintainability"

def FindingVersionControl : FindingCategory := "version-control"

def FindingDocumentation : FindingCategory := "documentation"

/-- FileCategory is a string type in the source (`type FileCategory string`). -/
abbrev FileCategory := String

def CategorySource : FileCategory := "source"

def CategoryAsset : FileCategory := "asset"

def CategoryDependency : FileCategory := "dependency"

def CategoryBuildArtifact : FileCategory := "build-artifact"

def CategoryConfig : FileCategory := "config"

def CategoryDocumentation : FileCategory := "documentation"

def CategoryTest : FileCategory := "test"

def CategoryOther : FileCategory := "other"

/-- models.FileInfo. -/
structure FileInfo where
  Path : String
  Size : Int
  «Type» : String
  Category : FileCategory
  deriving Repr, DecidableEq

/-- models.CategorizedFiles. -/
structure CategorizedFiles where
  SourceFiles : Int := 0
  AssetFiles : Int := 0
  DependencyFiles : Int := 0
  BuildArtifacts : Int := 0
  ConfigFiles : Int := 0
  DocumentationFiles : Int := 0
  TestFiles : Int := 0
  OtherFiles : Int := 0
  deriving Repr, DecidableEq

/-- models.FileSystemEvidence.  `FileTypes` is a Go map read back by key;
it is modelled as a total function with the Go zero default. -/
structure FileSystemEvidence where
  TotalFiles : Int := 0
  TotalDirectories : Int := 0
  TotalSize : Int := 0
  FileTypes : String → Int := fun _ => 0
  LargestFiles : List FileInfo := []
  SkippedDirs : List String := []
  SkippedDirsCount : Int := 0
  CategorizedFiles : CategorizedFiles := {}

/-- models.CommitInfo. -/
structure CommitInfo where
  Hash : String
  Author : String
  Date : Option Int
  Message : String
  deriving Repr, DecidableEq

/-- models.CommitFrequency. -/
structure CommitFrequency where
  Last7Days : Int := 0
  Last30Days : Int := 0
  Last90Days : Int := 0
  AveragePerWeek : ℚ := 0
  deriving Repr, DecidableEq

/-- models.ContributorInfo. -/
structure ContributorInfo where
  Name : String
  Email : String
  Commits : Int
  Percent : ℚ := 0
  deriving Repr, DecidableEq

/-- models.GitEvidence.  The two commit dates are `time.Time` in the source;
`none` models the zero `time.Time`. -/
structure GitEvidence where
  IsRepository : Bool := false
  TotalCommits : Int := 0
  Contributors : Int := 0
  FirstCommitDate : Option Int := none
  LastCommitDate : Option Int := none
  RecentActivity : List CommitInfo := []
  CommitFrequency : CommitFrequency := {}
  TopContributors : List ContributorInfo := []
  UncommittedChanges : Bool := false
  BranchCount : Int := 0
  CommitMessageQuality : ℚ := 0
  deriving Repr, DecidableEq

/-- models.TimelineEvidence. -/
structure TimelineEvidence where
  OldestFile : Option Int := none
  NewestFile : Option Int := none
  MostRecentDay : Int := 0
  ActivityBurst : Bool := false
  BurstDaySpan : Int := 0
  deriving Repr, DecidableEq

/-- models.CodeMarker. -/
structure CodeMarker where
  «Type» : String
  File : String
  Line : Int
  Content : String
  deriving Repr, DecidableEq

/-- models.Finding. -/
structure Finding where
  Severity : Severity
  Title : String
  Description : String
  Evidence : List String := []
  Recommendations : List String := []
  Category : FindingCategory := ""
  deriving Repr, DecidableEq

/-- models.ProjectType. -/
structure ProjectType where
  PrimaryLanguage : String := ""
  Framework : String := ""
  DetectedFiles : List String := []
  deriving Repr, DecidableEq

/-- models.SecretFinding. -/
structure SecretFinding where
  File : String
  Line : Int
  «Type» : String
  Pattern : String
  deriving Repr, DecidableEq

/-- models.SecurityRisk. -/
structure SecurityRisk where
  File : String
  Line : Int
  «Type» : String
  Description : String
  Severity : Severity
  deriving Repr, DecidableEq

/-- models.SecurityEvidence. -/
structure SecurityEvidence where
  HardcodedSecrets : List SecretFinding := []
  SQLInjectionRisks : List SecurityRisk := []
  XSSRisks : List SecurityRisk := []
  InsecurePatterns : List SecurityRisk := []
  deriving Repr, DecidableEq

/-- models.Evidence. -/
structure Evidence where
  FileSystem : FileSystemEvidence := {}
  Git : GitEvidence := {}
  CodeMarkers : List CodeMarker := []
  Timeline : TimelineEvidence := {}
  InvestigatorNotes : List String := []
  ProjectType : ProjectType := {}
  Security : SecurityEvidence := {}

/-- models.HealthBreakdown. -/
structure HealthBreakdown where
  VersionControl : Int := 0
  CodeQuality : Int := 0
  Security : Int := 0
  Performance : Int := 0
  Documentation : Int := 0
  Testing : Int := 0
  deriving Repr, DecidableEq

/-- models.Report.  `InvestigatedAt` is unix seconds (the source only uses
`report.InvestigatedAt.Unix()`). -/
structure Report where
  TargetPath : String
  InvestigatedAt : Int
  Evidence : Evidence := {}
  Findings : List Finding := []
  HealthScore : Int := 0
  HealthBreakdown : HealthBreakdown := {}
  ReportHash : String := ""
  Context : String := ""

/-! ### inference: weighted health scoring (CalculateHealthScoreWeighted) -/

/-- Severity deduction `switch` inside `CalculateHealthScoreWeighted`.
`deduction` starts at 0 and an unknown severity leaves it there (the Go
`switch` has no default case). -/
def severityDeduction (s : Severity) : Int :=
  if s = SeverityCritical then 10
  else if s = SeverityHigh then 5
  else if s = SeverityMedium then 3
  else if s = SeverityLow then 1
  else 0

/-- Category `switch` of the deduction loop in `CalculateHealthScoreWeighted`:
every finding category other than the four named ones (including
`documentation`) falls into the `default` branch and penalizes CodeQuality. -/
def applyFindingDeduction (breakdown : HealthBreakdown) (finding : Finding) :
    HealthBreakdown :=
  let deduction := severityDeduction finding.Severity
  if finding.Category = FindingVersionControl then
    { breakdown with VersionControl := max 0 (breakdown.VersionControl - deduction) }
  else if finding.Category = FindingCodeQuality ∨ finding.Category = FindingMaintainability then
    { breakdown with CodeQuality := max 0 (breakdown.CodeQuality - deduction) }
  else if finding.Category = FindingSecurity then
    { breakdown with Security := max 0 (breakdown.Security - deduction) }
  else if finding.Category = FindingPerformance then
    { breakdown with Performance := max 0 (breakdown.Performance - deduction) }
  else
    { breakdown with CodeQuality := max 0 (breakdown.CodeQuality - deduction) }

/-- inference.CalculateHealthScoreWeighted: start every component at its
maximum, deduct per finding (clamped at 0), apply the three bonuses (clamped
at the component maximum), and return the total together with the breakdown. -/
def CalculateHealthScoreWeighted (findings : List Finding) (evidence : Evidence) :
    Int × HealthBreakdown :=
  let breakdown : HealthBreakdown :=
    { VersionControl := 20, CodeQuality := 25, Security := 20,
      Performance := 15, Documentation := 10, Testing := 10 }
  let breakdown := findings.foldl applyFindingDeduction breakdown
  let breakdown :=
    if evidence.Git.IsRepository ∧ evidence.Git.TotalCommits > 10 then
      { breakdown with VersionControl := min 20 (breakdown.VersionControl + 2) }
    else breakdown
  let breakdown :=
    if evidence.FileSystem.CategorizedFiles.TestFiles > 0 then
      { breakdown with Testing := min 10 (breakdown.Testing + 5) }
    else breakdown
  let breakdown :=
    if evidence.FileSystem.CategorizedFiles.DocumentationFiles > 0 then
      { breakdown with Documentation := min 10 (breakdown.Documentation + 5) }
    else breakdown
  let totalScore := breakdown.VersionControl + breakdown.CodeQuality +
    breakdown.Security + breakdown.Performance + breakdown.Documentation +
    breakdown.Testing
  (totalScore, breakdown)

/-! ### inference: contextualizing findings (ContextualizeFindings) -/

/-! Go's string primitives (`strings.Contains`, `HasPrefix`, `HasSuffix`,
`ToLower`, `TrimSpace`) are re-implemented over character lists rather than
through core's `String` functions: byte versus rune indexing is immaterial
for the ASCII needles the source uses, and list recursion keeps every
definition evaluable inside the kernel. -/

/-- Does the first list start with the second? -/
def charsStartWith : List Char → List Char → Bool
  | _, [] => true
  | [], _ :: _ => false
  | c :: t, p :: pt => c = p && charsStartWith t pt

/-- Does the first list contain the second as a contiguous run? -/
def charsContain (sub : List Char) : List Char → Bool
  | [] => charsStartWith [] sub
  | c :: t => charsStartWith (c :: t) sub || charsContain sub t

/-- Go strings.HasPrefix. -/
def goStartsWith (s pre : String) : Bool := charsStartWith s.toList pre.toList

/-- Go strings.HasSuffix. -/
def goEndsWith (s suf : String) : Bool :=
  charsStartWith s.toList.reverse suf.toList.reverse

/-- Go strings.Contains. -/
def containsSubstrGo (s substr : String) : Bool :=
  charsContain substr.toList s.toList

/-- Go strings.ToLower (ASCII inputs). -/
def goToLower (s : String) : String := String.mk (s.toList.map Char.toLower)

/-- ASCII whitespace (the strings trimmed by the source are ASCII). -/
def isASCIISpace (c : Char) : Bool :=
  c = ' ' || c = '\t' || c = '\n' || c = '\x0b' || c = '\x0c' || c = '\r'

/-- Body of the `student` loop of `ContextualizeFindings`. -/
def studentAdjust (f : Finding) : Finding :=
  if f.Severity = SeverityHigh ∧
      (containsSubstrGo f.Title "Single Contributor" ∨
        containsSubstrGo f.Title "Version Control") then
    { f with Severity := SeverityMedium }
  else f

/-- Body of the `enterprise` loop of `ContextualizeFindings`. -/
def enterpriseAdjust (f : Finding) : Finding :=
  if f.Severity = SeverityMedium ∧
      (containsSubstrGo f.Title "No Version Control" ∨
        containsSubstrGo f.Title "Stale Repository") then
    { f with Severity := SeverityHigh }
  else f

/-- inference.ContextualizeFindings: the Go function copies the slice
(`make` + `copy`) and conditionally rewrites severities in the copy; the
copy-then-update is a `List.map`, and the untouched copy is the list itself. -/
def ContextualizeFindings (findings : List Finding) (context : String) :
    List Finding :=
  let context := if context = "" then "default" else context
  if goToLower context = "student" then findings.map studentAdjust
  else if goToLower context = "enterprise" then findings.map enterpriseAdjust
  else findings

/-! ### Go fmt modelling helpers

The inference rules put pretty-printed numbers and dates into narrative
`Description`/`Evidence` strings.  None of the claims constrain those
strings, but the analyzers are embedded whole, so the fmt verbs they use are
modelled here.  Sub-ulp binary-float64 rounding of Go's `%.1f`/`%.0f` is not
reproduced; the rationals are rendered exactly, rounded half-up. -/

/-- Models Go `fmt.Sprintf("%.<n>f", x)` on a rational: fixed-point with `n`
decimals, rounded half-up. -/
def formatRatFixed (decimals : Nat) (q : ℚ) : String :=
  let scaled : Int := round (q * (10 : ℚ) ^ decimals)
  let sign := if scaled < 0 then "-" else ""
  let a := scaled.natAbs
  let ip := a / 10 ^ decimals
  let fp := a % 10 ^ decimals
  if decimals = 0 then sign ++ toString ip
  else
    let fpStr := toString fp
    let fpStr := String.mk (List.replicate (decimals - fpStr.length) '0') ++ fpStr
    sign ++ toString ip ++ "." ++ fpStr

/-- Left-pads a numeral with zeros (for date rendering). -/
def padZeroNum (width : Nat) (n : Int) : String :=
  let s := toString n.natAbs
  String.mk (List.replicate (width - s.length) '0') ++ s

/-- Models Go `t.Format("2006-01-02")`: civil date of the unix timestamp in
UTC (days algorithm of Howard Hinnant's `civil_from_days`); `none` is the
zero `time.Time`, which Go renders as "0001-01-01". -/
def formatDate2006 : Option Int → String
  | none => "0001-01-01"
  | some t =>
    let z := Int.fdiv t 86400 + 719468
    let era := Int.fdiv z 146097
    let doe := z - era * 146097
    let yoe := (doe - doe / 1460 + doe / 36524 - doe / 146096) / 365
    let y := yoe + era * 400
    let doy := doe - (365 * yoe + yoe / 4 - yoe / 100)
    let mp := (5 * doy + 2) / 153
    let d := doy - (153 * mp + 2) / 5 + 1
    let m := mp + (if mp < 10 then 3 else -9)
    let y := y + (if m ≤ 2 then 1 else 0)
    padZeroNum 4 y ++ "-" ++ padZeroNum 2 m ++ "-" ++ padZeroNum 2 d

/-! ### inference: security findings -/

/-- inference.analyzeSecurity (the per-secret variant of the rule set):
every hardcoded secret yields one High-severity security finding. -/
def analyzeSecurity (sec : SecurityEvidence) : List Finding :=
  (sec.HardcodedSecrets.map fun s =>
    { Severity := SeverityHigh
      Title := "Potential Hardcoded Secret"
      Description := "Possible secret (" ++ s.«Type» ++ ") detected in code."
      Evidence := [s.File ++ ":" ++ toString s.Line ++ " (" ++ s.Pattern ++ ")"]
      Recommendations :=
        ["Rotate the exposed credential immediately.",
         "Replace with environment variables or secret manager (Vault, AWS Secrets Manager)."]
      Category := FindingSecurity }) ++
  (sec.SQLInjectionRisks.map fun risk =>
    { Severity := SeverityHigh
      Title := "SQL Injection Risk"
      Description := risk.Description
      Evidence := [risk.File ++ ":" ++ toString risk.Line]
      Recommendations := ["Use parameterized queries/ORM bindings; avoid string concatenation."]
      Category := FindingSecurity }) ++
  (sec.XSSRisks.map fun risk =>
    { Severity := SeverityMedium
      Title := "Potential XSS Vector"
      Description := risk.Description
      Evidence := [risk.File ++ ":" ++ toString risk.Line]
      Recommendations := ["HTML-escape untrusted output; use templating safeguards; add CSP."]
      Category := FindingSecurity }) ++
  (sec.InsecurePatterns.map fun risk =>
    { Severity := risk.Severity
      Title := risk.«Type»
      Description := risk.Description
      Evidence := [risk.File ++ ":" ++ toString risk.Line]
      Recommendations := ["Follow secure coding practices; add tests around this area."]
      Category := FindingSecurity })

/-- inference.buildSecretEvidence: first five secrets, then a "... and N
more" line when more than five exist. -/
def buildSecretEvidence (secrets : List SecretFinding) : List String :=
  let firstFive := (secrets.take 5).map fun s =>
    s.File ++ ":" ++ toString s.Line ++ " - " ++ s.«Type»
  if secrets.length > 5 then
    firstFive ++ ["... and " ++ toString (secrets.length - 5) ++ " more"]
  else firstFive

/-- inference.buildSecurityRiskEvidence. -/
def buildSecurityRiskEvidence (risks : List SecurityRisk) : List String :=
  let firstFive := (risks.take 5).map fun r =>
    r.File ++ ":" ++ toString r.Line ++ " - " ++ r.Description
  if risks.length > 5 then
    firstFive ++ ["... and " ++ toString (risks.length - 5) ++ " more"]
  else firstFive

/-- inference.analyzeSecurityEvidence (the aggregated rule set used by
GenerateFindingsEnhanced): any hardcoded secret yields one Critical
security finding; SQL injection, XSS and other insecure patterns yield one
High/Medium/Medium finding respectively. -/
def analyzeSecurityEvidence (security : SecurityEvidence) : List Finding :=
  (if security.HardcodedSecrets.length > 0 then
    [{ Severity := SeverityCritical
       Title := "Hardcoded Secrets Detected"
       Description := "Found " ++ toString security.HardcodedSecrets.length ++
         " potential hardcoded secrets (API keys, passwords, tokens). This is a critical security risk."
       Evidence := buildSecretEvidence security.HardcodedSecrets
       Category := FindingSecurity
       Recommendations :=
         ["IMMEDIATE: Remove secrets from code and rotate compromised credentials",
          "Use environment variables or secret management tools (Vault, AWS Secrets Manager)",
          "Add .env to .gitignore and provide .env.example template",
          "Use git-secrets or pre-commit hooks to prevent future leaks",
          "Review git history and purge secrets if already committed"] }]
  else []) ++
  (if security.SQLInjectionRisks.length > 0 then
    [{ Severity := SeverityHigh
       Title := "SQL Injection Vulnerability Patterns"
       Description := "Found " ++ toString security.SQLInjectionRisks.length ++
         " potential SQL injection vulnerabilities from string concatenation in queries."
       Evidence := buildSecurityRiskEvidence security.SQLInjectionRisks
       Category := FindingSecurity
       Recommendations :=
         ["CRITICAL: Use parameterized queries or prepared statements",
          "Never concatenate user input directly into SQL",
          "Use ORM frameworks (Eloquent, Sequelize, SQLAlchemy) with built-in protection",
          "Validate and sanitize all user inputs",
          "Run automated security scans with tools like SQLMap"] }]
  else []) ++
  (if security.XSSRisks.length > 0 then
    [{ Severity := SeverityMedium
       Title := "Cross-Site Scripting (XSS) Risks"
       Description := "Found " ++ toString security.XSSRisks.length ++
         " potential XSS vulnerabilities from unsafe HTML rendering."
       Evidence := buildSecurityRiskEvidence security.XSSRisks
       Category := FindingSecurity
       Recommendations :=
         ["Escape all user-generated content before rendering",
          "Use framework built-in escaping (React auto-escapes, use \x7b\x7b \x7d\x7d in templates)",
          "Implement Content Security Policy (CSP) headers",
          "Avoid innerHTML, document.write, and eval() with user data",
          "Use DOMPurify for sanitizing rich text"] }]
  else []) ++
  (if security.InsecurePatterns.length > 0 then
    [{ Severity := SeverityMedium
       Title := "Insecure Coding Patterns"
       Description := "Found " ++ toString security.InsecurePatterns.length ++
         " security concerns (weak crypto, insecure protocols, etc.)."
       Evidence := buildSecurityRiskEvidence security.InsecurePatterns
       Category := FindingSecurity
       Recommendations :=
         ["Replace MD5/SHA1 with bcrypt, argon2, or PBKDF2 for passwords",
          "Use HTTPS instead of HTTP for all external communication",
          "Keep dependencies updated to patch known vulnerabilities",
          "Enable security linting in your IDE"] }]
  else [])

/-- inference.analyzeFileSystemEnhanced. -/
def analyzeFileSystemEnhanced (fs : FileSystemEvidence) : List Finding :=
  let sourceCodeIssues : Int :=
    ((fs.LargestFiles.filter fun file =>
      file.Size > 1024 * 1024 ∧ file.Category = CategorySource).length : Int)
  let buildArtifactIssues : Int :=
    ((fs.LargestFiles.filter fun file =>
      file.Size > 1024 * 1024 ∧ file.Category = CategoryBuildArtifact).length : Int)
  (if fs.TotalFiles < 5 then
    [{ Severity := SeverityLow
       Title := "Minimal File Count"
       Description := "Project contains only " ++ toString fs.TotalFiles ++
         " files, suggesting early development stage."
       Evidence := ["Total files: " ++ toString fs.TotalFiles]
       Category := FindingCodeQuality
       Recommendations :=
         ["This is normal for new projects",
          "Consider adding a README.md to document your project",
          "Add .gitignore to exclude unnecessary files"] }]
  else []) ++
  (if sourceCodeIssues > 0 then
    [{ Severity := SeverityMedium
       Title := "Large Source Code Files"
       Description := "Found " ++ toString sourceCodeIssues ++
         " source code files exceeding 1MB. Large files are harder to review and maintain."
       Evidence := [toString sourceCodeIssues ++ " large source files detected"]
       Category := FindingCodeQuality
       Recommendations :=
         ["Consider breaking large files into smaller, focused modules",
          "Extract reusable components into separate files",
          "Review for potential code duplication"] }]
  else []) ++
  (if buildArtifactIssues > 0 then
    [{ Severity := SeverityLow
       Title := "Build Artifacts in Repository"
       Description := "Found " ++ toString buildArtifactIssues ++
         " build artifacts (compiled binaries, .exe, .dll). These should typically be excluded from version control."
       Evidence := [toString buildArtifactIssues ++ " build artifacts found"]
       Category := FindingMaintainability
       Recommendations :=
         ["Add build artifacts to .gitignore",
          "Remove existing artifacts with: git rm --cached <file>",
          "Use CI/CD for artifact generation instead"] }]
  else []) ++
  (if fs.CategorizedFiles.DocumentationFiles = 0 then
    [{ Severity := SeverityLow
       Title := "Missing Documentation"
       Description := "No documentation files (README.md, etc.) detected. Good documentation is essential for project maintainability."
       Evidence := ["No .md or .txt files found"]
       Category := FindingMaintainability
       Recommendations :=
         ["Create a README.md with project overview, setup instructions, and usage examples",
          "Add CONTRIBUTING.md for collaboration guidelines",
          "Consider API documentation if building a library"] }]
  else []) ++
  (if fs.CategorizedFiles.TestFiles = 0 ∧ fs.CategorizedFiles.SourceFiles > 10 then
    [{ Severity := SeverityMedium
       Title := "No Test Files Detected"
       Description := "Project has source code but no test files. Tests are crucial for code quality and maintainability."
       Evidence := [toString fs.CategorizedFiles.SourceFiles ++ " source files, 0 test files"]
       Category := FindingCodeQuality
       Recommendations :=
         ["Start with testing critical business logic",
          "Aim for at least 70% code coverage on core functionality",
          "Set up automated testing in CI/CD pipeline",
          "Use framework-specific testing tools (Jest, pytest, go test, etc.)"] }]
  else [])

/-- inference.analyzeGitEnhanced. -/
def analyzeGitEnhanced (git : GitEvidence) : List Finding :=
  if ¬git.IsRepository then
    [{ Severity := SeverityHigh
       Title := "No Version Control"
       Description := "Directory is not a git repository. Version control is essential for tracking changes, collaboration, and rollback capability."
       Evidence := ["No .git directory found"]
       Category := FindingVersionControl
       Recommendations :=
         ["Initialize git: git init",
          "Create .gitignore file for your language/framework",
          "Make initial commit: git add . && git commit -m 'Initial commit'",
          "Consider pushing to GitHub/GitLab for backup and collaboration"] }]
  else
    (if git.UncommittedChanges then
      [{ Severity := SeverityLow
         Title := "Uncommitted Changes Detected"
         Description := "Working directory has uncommitted changes. Regular commits help track progress and enable easy rollback."
         Evidence := ["Git status shows modified files"]
         Category := FindingVersionControl
         Recommendations :=
           ["Review changes with: git status",
            "Commit meaningful chunks: git add <files> && git commit -m 'descriptive message'",
            "Push to remote regularly to back up work"] }]
    else []) ++
    (if git.CommitFrequency.Last30Days = 0 ∧ git.TotalCommits > 10 then
      [{ Severity := SeverityMedium
         Title := "Inactive Repository"
         Description := "No commits in the last 30 days. Regular commits indicate active development and maintenance."
         Evidence := ["Last commit: " ++ formatDate2006 git.LastCommitDate]
         Category := FindingVersionControl
         Recommendations :=
           ["If project is complete, add documentation noting stable/production status",
            "If inactive, consider archiving the repository",
            "For active projects, commit at least weekly to track progress"] }]
    else if git.CommitFrequency.Last7Days > 20 then
      [{ Severity := SeverityLow
         Title := "High Commit Frequency"
         Description := toString git.CommitFrequency.Last7Days ++
           " commits in the last 7 days. Very frequent commits may indicate work-in-progress or lack of local testing before committing."
         Evidence := ["Average " ++ formatRatFixed 1 git.CommitFrequency.AveragePerWeek ++ " commits/week"]
         Category := FindingVersionControl
         Recommendations :=
           ["Ensure commits are meaningful and tested before pushing",
            "Consider using feature branches for experimental work",
            "Use 'git commit --amend' to fix recent commits instead of making new ones"] }]
    else []) ++
    (if git.CommitMessageQuality < 1 / 2 ∧ git.TotalCommits > 10 then
      [{ Severity := SeverityLow
         Title := "Low Commit Message Quality"
         Description := formatRatFixed 0 (git.CommitMessageQuality * 100) ++
           "% of commit messages are unclear or too brief. Good commit messages help track project history."
         Evidence := ["Many commits with messages like 'fix', 'WIP', 'update'"]
         Category := FindingMaintainability
         Recommendations :=
           ["Use format: 'type(scope): description' (e.g., 'feat(auth): add login validation')",
            "Describe WHAT changed and WHY, not HOW",
            "Keep first line under 50 chars, add details in body if needed",
            "Set up commit message templates or conventional commits"] }]
    else []) ++
    (if git.Contributors = 1 ∧ git.TotalCommits > 50 then
      [{ Severity := SeverityLow
         Title := "Single Contributor (Bus Factor Risk)"
         Description := "Project has only one contributor despite substantial work. This creates knowledge concentration risk."
         Evidence := [toString git.TotalCommits ++ " commits by 1 person"]
         Category := FindingMaintainability
         Recommendations :=
           ["Document key architecture decisions and design patterns",
            "Consider pair programming or code review practices",
            "Invite collaborators if it's an open-source project",
            "Write comprehensive README and contribution guidelines"] }]
    else []) ++
    (if git.TotalCommits < 10 then
      [{ Severity := SeverityLow
         Title := "Limited Commit History"
         Description := "Repository has minimal commit history, suggesting early development stage."
         Evidence := ["Total commits: " ++ toString git.TotalCommits]
         Category := FindingVersionControl
         Recommendations :=
           ["This is normal for new projects",
            "Commit frequently to capture incremental progress",
            "Each commit should be a logical, working state"] }]
    else [])

/-- inference.countMarkerType / the `markerCounts` map reads: number of
markers of a given kind. -/
def markerCount (markers : List CodeMarker) (t : String) : Int :=
  ((markers.filter fun m => m.«Type» = t).length : Int)

/-- inference.analyzeCodeMarkersEnhanced. -/
def analyzeCodeMarkersEnhanced (markers : List CodeMarker) : List Finding :=
  if markers.length = 0 then []
  else
    let fixmeBug := markerCount markers "FIXME" + markerCount markers "BUG"
    let todo := markerCount markers "TODO"
    let hack := markerCount markers "HACK"
    (if fixmeBug > 0 then
      [{ Severity := if fixmeBug > 10 then SeverityHigh else SeverityMedium
         Title := "Known Issues in Code"
         Description := "Found " ++ toString fixmeBug ++
           " FIXME/BUG markers indicating known problems requiring attention."
         Evidence := ["FIXME: " ++ toString (markerCount markers "FIXME") ++
           ", BUG: " ++ toString (markerCount markers "BUG")]
         Category := FindingCodeQuality
         Recommendations :=
           ["Create GitHub issues for top " ++ toString (min fixmeBug 10) ++ " critical markers",
            "Prioritize fixing bugs before adding new features",
            "Set up automated TODO tracking with tools like todo-tree",
            "Schedule regular 'technical debt' sprints to address markers"] }]
    else []) ++
    (if todo > 20 then
      [{ Severity := SeverityMedium
         Title := "High TODO Count"
         Description := "Found " ++ toString todo ++
           " TODO markers. Many pending tasks may indicate incomplete features or ambitious roadmap."
         Evidence := ["TODO markers: " ++ toString todo]
         Category := FindingMaintainability
         Recommendations :=
           ["Review and convert " ++ toString (min todo 20) ++ " high-priority TODOs into tracked issues",
            "Remove obsolete TODOs that are no longer relevant",
            "Link TODOs to specific issue numbers: // TODO(#123): description",
            "Set deadlines for feature completion"] }]
    else if todo > 0 then
      [{ Severity := SeverityLow
         Title := "Pending Tasks"
         Description := "Found " ++ toString todo ++ " TODO markers indicating planned work."
         Evidence := ["TODO markers: " ++ toString todo]
         Category := FindingMaintainability
         Recommendations :=
           ["This is normal for active projects",
            "Ensure TODOs have clear descriptions and owners"] }]
    else []) ++
    (if hack > 0 then
      [{ Severity := SeverityMedium
         Title := "Technical Debt Indicators"
         Description := "Found " ++ toString hack ++
           " HACK markers suggesting suboptimal solutions requiring refactoring."
         Evidence := ["HACK markers: " ++ toString hack]
         Category := FindingCodeQuality
         Recommendations :=
           ["Schedule refactoring sessions to eliminate hacks",
            "Document why the hack exists and ideal solution",
            "Prioritize removing hacks in critical paths",
            "Consider pair programming to find better solutions"] }]
    else [])

/-- inference.getFrameworkRecommendations. -/
def getFrameworkRecommendations (framework : String) : List String :=
  if containsSubstrGo framework "Laravel" then
    ["Ensure .env is in .gitignore and use .env.example as template",
     "Run 'php artisan optimize' before deploying to production",
     "Use Laravel Telescope or Debugbar to detect N+1 queries",
     "Validate all requests with Form Requests",
     "Keep Laravel updated: composer update"]
  else if containsSubstrGo framework "Node.js" then
    ["Run 'npm audit' regularly to check for vulnerable dependencies",
     "Use .nvmrc file to lock Node version",
     "Add 'engines' field in package.json to specify compatible versions",
     "Consider using Typescript for better type safety",
     "Use ESLint and Prettier for code quality"]
  else if containsSubstrGo framework "Django" then
    ["Never commit SECRET_KEY - use environment variables",
     "Enable DEBUG=False in production",
     "Run 'python manage.py check --deploy' before deployment",
     "Use Django's built-in CSRF protection",
     "Keep dependencies updated with pip-audit"]
  else if containsSubstrGo framework "Docker" then
    ["Create .dockerignore to exclude unnecessary files",
     "Use multi-stage builds to minimize image size",
     "Pin base image versions (e.g., node:18.16-alpine, not node:latest)",
     "Run containers as non-root user for security",
     "Scan images with 'docker scan' or Trivy"]
  else
    ["Follow framework-specific security best practices",
     "Keep dependencies updated",
     "Use framework's built-in security features"]

/-- inference.analyzeProjectType. -/
def analyzeProjectType (projectType : ProjectType) : List Finding :=
  if projectType.Framework = "" then []
  else
    [{ Severity := SeverityLow
       Title := projectType.Framework ++ " Project Detected"
       Description := "Detected " ++ projectType.Framework ++
         " project. Framework-specific best practices will be applied."
       Evidence := projectType.DetectedFiles
       Category := FindingCodeQuality
       Recommendations := getFrameworkRecommendations projectType.Framework }]

/-- inference.GenerateFindingsEnhanced: the inference engine of §4.7,
emitting rule groups in the order filesystem → git → markers → security →
project-type. -/
def GenerateFindingsEnhanced (evidence : Evidence) : List Finding :=
  analyzeFileSystemEnhanced evidence.FileSystem ++
  analyzeGitEnhanced evidence.Git ++
  analyzeCodeMarkersEnhanced evidence.CodeMarkers ++
  analyzeSecurityEvidence evidence.Security ++
  analyzeProjectType evidence.ProjectType

/-! ### The source's bubble-sort loops

`internal/git/git.go` (top contributors) and `internal/scanner/scanner.go`
(largest files) both sort in place with the same adjacent-swap loop

  for i := 0; i < len(l)-1 && <cap>; i++
    for j := 0; j < len(l)-i-1; j++
      if l[j].W < l[j+1].W { swap }

differing only in the weight field and in the outer-loop cap.  One inner
pass over a prefix sweeps the running minimum of that prefix to its right
end and leaves the elements after the prefix untouched, so the whole loop is
the recursion below: one full pass, then the remaining passes on everything
except the last element.  `bubbleGoAux w k l` runs `k` outer iterations. -/

/-- The sweep of one bubble pass, carrying the pending left element `a`
rightwards over the remainder of the prefix. -/
def bubblePassAux (w : α → Int) (a : α) : List α → List α
  | [] => [a]
  | b :: t => if w a < w b then b :: bubblePassAux w a t else a :: bubblePassAux w b t

/-- One in-place bubble pass (the inner `j` loop): swaps each adjacent pair
whose left weight is strictly smaller. -/
def bubblePass (w : α → Int) : List α → List α
  | [] => []
  | a :: t => bubblePassAux w a t

/-- The outer `i` loop: `k` passes over successively shorter prefixes. -/
def bubbleGoAux (w : α → Int) : Nat → List α → List α
  | 0, l => l
  | Nat.succ k, l =>
    let l' := bubblePass w l
    bubbleGoAux w k l'.dropLast ++ l'.getLast?.toList

/-- The percentage-assignment loop preceding the sort:
`c.Percent = float64(c.Commits) / float64(commitCount) * 100`. -/
def assignPercents (commitCount : Int) (contribs : List ContributorInfo) :
    List ContributorInfo :=
  contribs.map fun c =>
    { c with Percent := (c.Commits : ℚ) / (commitCount : ℚ) * 100 }

/-- git.AnalyzeRepository lines 126-144: set every contributor's percentage,
run the capped bubble sort (at most 5 outer iterations), and keep the first
five entries.  `contribs` is the contributor map in iteration order; Go maps
iterate in unspecified order, so theorems quantify over this list. -/
def goTopContributors (contribs : List ContributorInfo) (commitCount : Int) :
    List ContributorInfo :=
  let contributorList := assignPercents commitCount contribs
  let sorted := bubbleGoAux (fun c => c.Commits) (min (contributorList.length - 1) 5)
    contributorList
  if sorted.length > 5 then sorted.take 5 else sorted

/-- scanner.ScanFileSystem lines 325-339: the post-walk selection of the
ten largest files from the walk-encounter list — a full (uncapped) bubble
sort by size descending, then truncation to ten. -/
def goLargestFiles (files : List FileInfo) : List FileInfo :=
  if files.length > 1 then
    let sorted := bubbleGoAux (fun f => f.Size) (files.length - 1) files
    if sorted.length > 10 then sorted.take 10 else sorted
  else files

/-! ### internal/git: AnalyzeRepository -/

/-- One commit as seen by the ancestry iteration (`object.Commit`): the
author's `When` is unix seconds. -/
structure CommitData where
  Hash : String
  AuthorName : String
  AuthorEmail : String
  When : Int
  Message : String
  deriving Repr, DecidableEq

/-- The observable state of an opened repository.  `commits` is the head
ancestry in `repo.Log` iteration order, `none` modelling a `Head()`/`Log()`
error; `worktreeClean`/`branches` are `none` when the corresponding
repository reads fail. -/
structure RepoData where
  commits : Option (List CommitData)
  worktreeClean : Option Bool := some true
  branches : Option Nat := some 0

/-- The contributor-map update of the ancestry loop: keyed by author email,
name retained from the first occurrence, commit count incremented.  The map
is modelled as an assoc list in first-seen order. -/
def addContributor (acc : List ContributorInfo) (c : CommitData) :
    List ContributorInfo :=
  if acc.any fun ci => ci.Email = c.AuthorEmail then
    acc.map fun ci =>
      if ci.Email = c.AuthorEmail then { ci with Commits := ci.Commits + 1 } else ci
  else
    acc ++ [{ Name := c.AuthorName, Email := c.AuthorEmail, Commits := 1 }]

/-- Go `strings.TrimSpace` (the strings involved are ASCII). -/
def goTrimSpace (s : String) : String :=
  String.mk (((s.toList.dropWhile isASCIISpace).reverse.dropWhile isASCIISpace).reverse)

/-- The commit-message quality test of the ancestry loop: trimmed message
longer than 10 bytes and not starting with `WIP` or `fix`. -/
def isGoodMessage (msg : String) : Bool :=
  let m := goTrimSpace msg
  m.utf8ByteSize > 10 && !goStartsWith m "WIP" && !goStartsWith m "fix"

/-- git.AnalyzeRepository.  `openResult = none` models `git.PlainOpen`
failing (no repository / unopenable path); `now` is the evaluation time in
unix seconds.  Every return path of the Go function carries a `nil` error;
the second component is that (always-`none`) error.  The float comparisons
(`daysSince <= 7` …) are modelled with exact rationals. -/
def AnalyzeRepository (openResult : Option RepoData) (now : Int) :
    GitEvidence × Option String :=
  match openResult with
  | none => ({ IsRepository := false }, none)
  | some repo =>
    match repo.commits with
    | none => ({ IsRepository := true }, none)
    | some commits =>
      let commitCount : Int := (commits.length : Int)
      let contributors := commits.foldl addContributor []
      let firstCommit := commits.foldl (fun acc c =>
        match acc with
        | none => some c.When
        | some f => if c.When < f then some c.When else some f) none
      let lastCommit := commits.foldl (fun acc c =>
        match acc with
        | none => some c.When
        | some l => if c.When > l then some c.When else some l) none
      let daysSince : CommitData → ℚ := fun c => ((now - c.When : Int) : ℚ) / 3600 / 24
      let commits7Days : Int := ((commits.filter fun c => daysSince c ≤ 7).length : Int)
      let commits30Days : Int := ((commits.filter fun c => daysSince c ≤ 30).length : Int)
      let commits90Days : Int := ((commits.filter fun c => daysSince c ≤ 90).length : Int)
      let goodMessages : Int := ((commits.filter fun c => isGoodMessage c.Message).length : Int)
      let recentCommits := (commits.take 10).map fun c =>
        { Hash := c.Hash.take 8, Author := c.AuthorName, Date := some c.When,
          Message := c.Message : CommitInfo }
      let averagePerWeek : ℚ :=
        match firstCommit with
        | none => 0
        | some f =>
          if commitCount > 0 then
            let weeksSinceFirstCommit : ℚ := ((now - f : Int) : ℚ) / 3600 / 24 / 7
            if weeksSinceFirstCommit > 0 then (commitCount : ℚ) / weeksSinceFirstCommit
            else 0
          else 0
      let quality : ℚ :=
        if commitCount > 0 then (goodMessages : ℚ) / (commitCount : ℚ) else 0
      ({ IsRepository := true
         TotalCommits := commitCount
         Contributors := (contributors.length : Int)
         FirstCommitDate := firstCommit
         LastCommitDate := lastCommit
         RecentActivity := recentCommits
         CommitFrequency :=
           { Last7Days := commits7Days, Last30Days := commits30Days,
             Last90Days := commits90Days, AveragePerWeek := averagePerWeek }
         TopContributors := goTopContributors contributors commitCount
         UncommittedChanges := match repo.worktreeClean with
           | some clean => !clean
           | none => false
         BranchCount := match repo.branches with
           | some n => (n : Int)
           | none => 0
         CommitMessageQuality := quality }, none)

/-! ### internal/scanner: code marker matching (ScanCodeMarkers)

Every entry of the `markerPatterns` table is the regex
`(?i)//\s*KW:?\s*(.+)` for its keyword KW.  Since KW is non-empty and
contains no space, colon or newline, `FindStringSubmatch(line) != nil` holds
iff some position of `line` starts `//`, followed by whitespace, followed by
KW case-insensitively, with at least one character remaining (the optional
`:` and the `\s*` before `(.+)` can always be absorbed by `.+`, which
matches any character of a newline-free line, and the `\s*` after `//` must
consume exactly the contiguous whitespace because KW starts with a
non-space).  `markerHere` below implements exactly that reading. -/

/-- Go regexp `\s` class: `[\t\n\f\r ]`. -/
def isGoRegexSpace (c : Char) : Bool :=
  c = ' ' || c = '\t' || c = '\n' || c = '\x0c' || c = '\r'

/-- Drops `kw` from the front of `s` case-insensitively, returning the rest. -/
def dropKeywordCI : List Char → List Char → Option (List Char)
  | [], s => some s
  | _ :: _, [] => none
  | k :: kt, c :: ct => if k.toLower = c.toLower then dropKeywordCI kt ct else none

/-- Does `(?i)//\s*KW:?\s*(.+)` match starting at this suffix? -/
def markerHere (kw : List Char) (s : List Char) : Bool :=
  match s with
  | '/' :: '/' :: t =>
    match dropKeywordCI kw (t.dropWhile isGoRegexSpace) with
    | some rest => !rest.isEmpty
    | none => false
  | _ => false

/-- Tests a predicate on every suffix of a list. -/
def anySuffix (p : List Char → Bool) : List Char → Bool
  | [] => p []
  | c :: t => p (c :: t) || anySuffix p t

/-- Unanchored search of the marker pattern over one line. -/
def markerLineMatches (kw : String) (line : String) : Bool :=
  anySuffix (markerHere kw.toList) line.toList

/-- The keys of the `markerPatterns` map (a Go map — its iteration order is
unspecified and may differ between runs). -/
def markerKeys : List String := ["TODO", "FIXME", "HACK", "BUG", "NOTE"]

/-- scanner.ScanCodeMarkers lines 391-401: the per-line loop over the
pattern table.  `order` is the iteration order of the `markerPatterns` map
for this run. -/
def scanCodeMarkersLine (order : List String) (file : String) (lineNum : Int)
    (line : String) : List CodeMarker :=
  order.filterMap fun markerType =>
    if markerLineMatches markerType line then
      some { «Type» := markerType, File := file, Line := lineNum,
             Content := goTrimSpace line }
    else none

/-- scanner.ScanCodeMarkers: the per-file line loop (1-based numbering). -/
def scanCodeMarkersFile (order : List String) (path : String)
    (lines : List String) : List CodeMarker :=
  lines.enum.flatMap fun p => scanCodeMarkersLine order path ((p.1 : Int) + 1) p.2

/-! ### internal/scanner: security scanning (ScanSecurity)

The secret/SQL/XSS tables are RE2 regexes; they are embedded through a small
executable regular-expression kernel (Brzozowski derivatives over character
predicates).  Each table entry below transcribes the source pattern
one-to-one; `matchStringGo` is Go's unanchored `MatchString`. -/

/-- Regular expressions over character predicates. -/
inductive RE where
  | fail : RE
  | eps : RE
  | chr (p : Char → Bool) : RE
  | cat (r s : RE) : RE
  | alt (r s : RE) : RE
  | star (r : RE) : RE

/-- Smart concatenation (prunes `fail`/`eps`). -/
def RE.catS : RE → RE → RE
  | .fail, _ => .fail
  | _, .fail => .fail
  | .eps, r => r
  | r, .eps => r
  | r, s => .cat r s

/-- Smart alternation (prunes `fail`). -/
def RE.altS : RE → RE → RE
  | .fail, r => r
  | r, .fail => r
  | r, s => .alt r s

/-- Does the expression accept the empty string? -/
def RE.nullable : RE → Bool
  | .fail => false
  | .eps => true
  | .chr _ => false
  | .cat r s => r.nullable && s.nullable
  | .alt r s => r.nullable || s.nullable
  | .star _ => true

/-- Brzozowski derivative with respect to one character. -/
def RE.deriv : RE → Char → RE
  | .fail, _ => .fail
  | .eps, _ => .fail
  | .chr p, c => if p c then .eps else .fail
  | .cat r s, c =>
    if r.nullable then .altS (.catS (r.deriv c) s) (s.deriv c)
    else .catS (r.deriv c) s
  | .alt r s, c => .altS (r.deriv c) (s.deriv c)
  | .star r, c => .catS (r.deriv c) (.star r)

/-- Whole-string match. -/
def RE.matchFull (r : RE) (s : String) : Bool :=
  (s.foldl RE.deriv r).nullable

/-- Go `Regexp.MatchString`: unanchored search for the pattern anywhere in
the string. -/
def matchStringGo (r : RE) (s : String) : Bool :=
  RE.matchFull (.cat (.star (.chr fun _ => true)) (.cat r (.star (.chr fun _ => true)))) s

/-- Case-sensitive literal. -/
def RE.lit (cs : String) : RE :=
  cs.toList.foldr (fun c acc => RE.cat (RE.chr fun x => x = c) acc) RE.eps

/-- Case-insensitive literal (for patterns under `(?i)`; all of them are
ASCII). -/
def RE.litCI (cs : String) : RE :=
  cs.toList.foldr (fun c acc => RE.cat (RE.chr fun x => x.toLower = c.toLower) acc) RE.eps

/-- Zero-or-one. -/
def RE.opt (r : RE) : RE := RE.alt RE.eps r

/-- Exactly `n` copies. -/
def RE.rep : Nat → RE → RE
  | 0, _ => RE.eps
  | Nat.succ n, r => RE.cat r (RE.rep n r)

/-- RE2 counted repetition with no upper bound. -/
def RE.atLeast (n : Nat) (r : RE) : RE := RE.cat (RE.rep n r) (RE.star r)

/-- RE2 `.`: any character except newline. -/
def RE.dot : RE := RE.chr fun c => c ≠ '\n'

/-- RE2 `\s*`/`\s` building block. -/
def RE.sp : RE := RE.chr isGoRegexSpace

/-- Class `['"]`. -/
def RE.quote : RE := RE.chr fun c => c = '\'' || c = '"'

/-- Class `[_-]`. -/
def RE.undash : RE := RE.chr fun c => c = '_' || c = '-'

/-- Class `[:=]`. -/
def RE.colonEq : RE := RE.chr fun c => c = ':' || c = '='

/-- Class `[a-zA-Z0-9_\-]`. -/
def RE.wordDash : RE := RE.chr fun c => c.isAlphanum || c = '_' || c = '-'

/-- Class `[a-zA-Z0-9]`. -/
def RE.alnum : RE := RE.chr Char.isAlphanum

/-- The names in the `secretPatterns` map, i.e. its key set.  The map is
iterated per line; the per-run iteration order is unspecified. -/
def secretKeys : List String :=
  ["api-key", "password", "token", "private-key", "aws-access-key",
   "github-token", "slack-token", "stripe-key", "database-url"]

/-- The `secretPatterns` table.  Each branch transcribes the regex of the
same key.  Two faithful subtleties: under `(?i)` the class `[0-9A-Z]` also
matches lowercase letters, and in the raw-string class `[^'"\\s]` the `\\`
is an escaped backslash, so the class excludes the *letter* `s`, not
whitespace. -/
def secretPatternOf (name : String) : RE :=
  if name = "api-key" then
    -- (?i)(api[_-]?key|apikey)\s*[:=]\s*['"]([a-zA-Z0-9_\-]{20,})['"]
    .cat (.alt (.cat (.litCI "api") (.cat (.opt .undash) (.litCI "key"))) (.litCI "apikey"))
      (.cat (.star .sp) (.cat .colonEq (.cat (.star .sp)
        (.cat .quote (.cat (.atLeast 20 .wordDash) .quote)))))
  else if name = "password" then
    -- (?i)(password|passwd|pwd)\s*[:=]\s*['"]([^'"]{8,})['"]
    .cat (.alt (.litCI "password") (.alt (.litCI "passwd") (.litCI "pwd")))
      (.cat (.star .sp) (.cat .colonEq (.cat (.star .sp)
        (.cat .quote (.cat (.atLeast 8 (.chr fun c => ¬(c = '\'' ∨ c = '"'))) .quote)))))
  else if name = "token" then
    -- (?i)(token|auth[_-]?token)\s*[:=]\s*['"]([a-zA-Z0-9_\-]{20,})['"]
    .cat (.alt (.litCI "token") (.cat (.litCI "auth") (.cat (.opt .undash) (.litCI "token"))))
      (.cat (.star .sp) (.cat .colonEq (.cat (.star .sp)
        (.cat .quote (.cat (.atLeast 20 .wordDash) .quote)))))
  else if name = "private-key" then
    -- -----BEGIN (RSA |EC |DSA )?PRIVATE KEY-----   (case-sensitive)
    .cat (.lit "-----BEGIN ")
      (.cat (.opt (.alt (.lit "RSA ") (.alt (.lit "EC ") (.lit "DSA "))))
        (.lit "PRIVATE KEY-----"))
  else if name = "aws-access-key" then
    -- (?i)(aws[_-]?access[_-]?key[_-]?id|aws_access_key)\s*[:=]\s*['"]?(AKIA[0-9A-Z]{16})['"]?
    .cat (.alt
        (.cat (.litCI "aws") (.cat (.opt .undash) (.cat (.litCI "access")
          (.cat (.opt .undash) (.cat (.litCI "key") (.cat (.opt .undash) (.litCI "id")))))))
        (.litCI "aws_access_key"))
      (.cat (.star .sp) (.cat .colonEq (.cat (.star .sp) (.cat (.opt .quote)
        (.cat (.litCI "AKIA")
          (.cat (.rep 16 (.chr fun c => c.isDigit || c.isAlpha)) (.opt .quote)))))))
  else if name = "github-token" then
    -- (?i)(github[_-]?token|gh_token)\s*[:=]\s*['"]?(ghp_[a-zA-Z0-9]{36})['"]?
    .cat (.alt (.cat (.litCI "github") (.cat (.opt .undash) (.litCI "token")))
        (.litCI "gh_token"))
      (.cat (.star .sp) (.cat .colonEq (.cat (.star .sp) (.cat (.opt .quote)
        (.cat (.litCI "ghp_") (.cat (.rep 36 .alnum) (.opt .quote)))))))
  else if name = "slack-token" then
    -- xox[baprs]-[0-9]{10,13}-[a-zA-Z0-9-]{24,}   (case-sensitive)
    .cat (.lit "xox")
      (.cat (.chr fun c => c = 'b' || c = 'a' || c = 'p' || c = 'r' || c = 's')
        (.cat (.lit "-")
          (.cat (.rep 10 (.chr Char.isDigit))
            (.cat (.opt (.chr Char.isDigit)) (.cat (.opt (.chr Char.isDigit))
              (.cat (.opt (.chr Char.isDigit))
                (.cat (.lit "-")
                  (.atLeast 24 (.chr fun c => c.isAlphanum || c = '-')))))))))
  else if name = "stripe-key" then
    -- (?i)(sk_live_|pk_live_)[a-zA-Z0-9]{24,}
    .cat (.alt (.litCI "sk_live_") (.litCI "pk_live_")) (.atLeast 24 .alnum)
  else if name = "database-url" then
    -- (?i)(database[_-]?url|db[_-]?url)\s*[:=]\s*['"]?(postgres|mysql|mongodb)://[^'"\\s]+['"]?
    .cat (.alt (.cat (.litCI "database") (.cat (.opt .undash) (.litCI "url")))
        (.cat (.litCI "db") (.cat (.opt .undash) (.litCI "url"))))
      (.cat (.star .sp) (.cat .colonEq (.cat (.star .sp) (.cat (.opt .quote)
        (.cat (.alt (.litCI "postgres") (.alt (.litCI "mysql") (.litCI "mongodb")))
          (.cat (.lit "://")
            (.cat (.atLeast 1 (.chr fun c => ¬(c = '\'' ∨ c = '"' ∨ c = '\\' ∨ c = 's')))
              (.opt .quote))))))))
  else .fail

/-- The `sqlInjectionPatterns` slice (a Go slice — fixed order). -/
def sqlInjectionREs : List RE :=
  [ -- (?i)query\s*\(?\s*["']?\s*SELECT.*\+.*["']?
    .cat (.litCI "query") (.cat (.star .sp) (.cat (.opt (.chr fun c => c = '('))
      (.cat (.star .sp) (.cat (.opt .quote) (.cat (.star .sp) (.cat (.litCI "SELECT")
        (.cat (.star .dot) (.cat (.chr fun c => c = '+')
          (.cat (.star .dot) (.opt .quote)))))))))),
    -- (?i)execQuery\s*\(?\s*["']?\s*SELECT.*\$.*["']?
    .cat (.litCI "execQuery") (.cat (.star .sp) (.cat (.opt (.chr fun c => c = '('))
      (.cat (.star .sp) (.cat (.opt .quote) (.cat (.star .sp) (.cat (.litCI "SELECT")
        (.cat (.star .dot) (.cat (.chr fun c => c = '$')
          (.cat (.star .dot) (.opt .quote)))))))))),
    -- (?i)(SELECT|UPDATE|DELETE|INSERT).*\+\s*(req\.body|params|request)
    .cat (.alt (.litCI "SELECT") (.alt (.litCI "UPDATE") (.alt (.litCI "DELETE") (.litCI "INSERT"))))
      (.cat (.star .dot) (.cat (.chr fun c => c = '+') (.cat (.star .sp)
        (.alt (.litCI "req.body") (.alt (.litCI "params") (.litCI "request")))))),
    -- (?i)execute\s*\(\s*["']SELECT.*\+
    .cat (.litCI "execute") (.cat (.star .sp) (.cat (.chr fun c => c = '(')
      (.cat (.star .sp) (.cat .quote (.cat (.litCI "SELECT")
        (.cat (.star .dot) (.chr fun c => c = '+'))))))) ]

/-- The `xssPatterns` slice. -/
def xssREs : List RE :=
  [ -- (?i)innerHTML\s*=\s*.*\+
    .cat (.litCI "innerHTML") (.cat (.star .sp) (.cat (.chr fun c => c = '=')
      (.cat (.star .sp) (.cat (.star .dot) (.chr fun c => c = '+'))))),
    -- (?i)document\.write\s*\(\s*.*\+
    .cat (.litCI "document.write") (.cat (.star .sp) (.cat (.chr fun c => c = '(')
      (.cat (.star .sp) (.cat (.star .dot) (.chr fun c => c = '+'))))),
    -- (?i)eval\s*\(\s*(req\.|request\.|params\.)
    .cat (.litCI "eval") (.cat (.star .sp) (.cat (.chr fun c => c = '(')
      (.cat (.star .sp)
        (.alt (.litCI "req.") (.alt (.litCI "request.") (.litCI "params.")))))),
    -- (?i)dangerouslySetInnerHTML
    .litCI "dangerouslySetInnerHTML" ]

/-- Empty security evidence (the initial aggregate of ScanSecurity). -/
def emptySecurityEvidence : SecurityEvidence := {}

/-- Pointwise concatenation of two security-evidence aggregates. -/
def appendSecurityEvidence (a b : SecurityEvidence) : SecurityEvidence :=
  { HardcodedSecrets := a.HardcodedSecrets ++ b.HardcodedSecrets
    SQLInjectionRisks := a.SQLInjectionRisks ++ b.SQLInjectionRisks
    XSSRisks := a.XSSRisks ++ b.XSSRisks
    InsecurePatterns := a.InsecurePatterns ++ b.InsecurePatterns }

/-- scanner.ScanSecurity: the per-line checks.  `secretOrder` is this run's
iteration order of the `secretPatterns` map; the SQL/XSS slices have a fixed
order. -/
def scanSecurityLine (secretOrder : List String) (path : String) (lineNum : Int)
    (line : String) : SecurityEvidence :=
  { HardcodedSecrets := secretOrder.filterMap fun secretType =>
      if matchStringGo (secretPatternOf secretType) line then
        some { File := path, Line := lineNum, «Type» := secretType,
               Pattern := goTrimSpace line }
      else none
    SQLInjectionRisks := (sqlInjectionREs.filter fun r => matchStringGo r line).map fun _ =>
      { File := path, Line := lineNum, «Type» := "sql-injection",
        Description := "Potential SQL injection vulnerability from string concatenation",
        Severity := SeverityHigh }
    XSSRisks := (xssREs.filter fun r => matchStringGo r line).map fun _ =>
      { File := path, Line := lineNum, «Type» := "xss",
        Description := "Potential XSS vulnerability from unsafe HTML rendering",
        Severity := SeverityMedium }
    InsecurePatterns :=
      (if containsSubstrGo line "crypto.MD5" || containsSubstrGo line "hashlib.md5" then
        [{ File := path, Line := lineNum, «Type» := "weak-crypto",
           Description := "Weak hashing algorithm (MD5) detected",
           Severity := SeverityMedium }]
      else []) ++
      (if matchStringGo (.litCI "http://") line && !containsSubstrGo line "localhost" then
        [{ File := path, Line := lineNum, «Type» := "insecure-protocol",
           Description := "Insecure HTTP protocol usage (should use HTTPS)",
           Severity := SeverityLow }]
      else []) }

/-- Go `filepath.Ext`: the suffix of the last path element starting at its
final dot, empty when there is no dot. -/
def goExt (path : String) : String :=
  let base := ((path.splitOn "/").getLast? ).getD path
  let cs := base.toList
  let tail := (cs.reverse.takeWhile fun c => c ≠ '.').reverse
  if tail.length = cs.length then "" else String.mk ('.' :: tail)

/-- The `sourceExtensions` allow-list of ScanSecurity. -/
def securityAllowedExts : List String :=
  [".go", ".js", ".ts", ".py", ".php", ".java", ".rb", ".cs", ".jsx", ".tsx",
   ".vue", ".html", ".env", ".config", ".yml"]

/-- File selection of ScanSecurity: allow-listed extension, or any path
ending in `.env`. -/
def securityScansFile (path : String) : Bool :=
  securityAllowedExts.contains (goExt path) || goEndsWith path ".env"

/-- scanner.ScanSecurity: the whole per-file scan (1-based line numbers). -/
def scanSecurityFile (secretOrder : List String) (path : String)
    (lines : List String) : SecurityEvidence :=
  (lines.enum.map fun p => scanSecurityLine secretOrder path ((p.1 : Int) + 1) p.2).foldl
    appendSecurityEvidence emptySecurityEvidence

/-- ScanSecurity's directory-skip test (scanner.go lines 615-622): the
hidden-name check sits *inside* the loop over `excludeDirs`, so an empty
exclusion list skips nothing at all. -/
def securitySkipDir (name : String) (excludeDirs : List String) : Bool :=
  excludeDirs.any fun exclude => name = exclude || goStartsWith name "."

/-- A filesystem tree as observed by `filepath.Walk`: children are listed in
the (deterministic, lexical) walk order. -/
inductive FsTree where
  | file (name : String) (lines : List String) : FsTree
  | dir (name : String) (children : List FsTree) : FsTree

/-- The ScanSecurity walk with the directory-skip decision abstracted into
`skip`; `dirPath` is the walked path prefix. -/
def scanSecurityWalkWith (secretOrder : List String) (skip : String → Bool)
    (dirPath : String) : FsTree → SecurityEvidence
  | .file name lines =>
    let path := dirPath ++ name
    if securityScansFile path then scanSecurityFile secretOrder path lines
    else emptySecurityEvidence
  | .dir name children =>
    if skip name then emptySecurityEvidence
    else
      (children.attach.map fun c =>
        scanSecurityWalkWith secretOrder skip (dirPath ++ name ++ "/") c.1).foldl
        appendSecurityEvidence emptySecurityEvidence
termination_by t => sizeOf t
decreasing_by
  have h := List.sizeOf_lt_of_mem c.2
  simp only [FsTree.dir.sizeOf_spec]
  omega

/-- scanner.ScanSecurity over a tree: walk from the root, skipping a
directory exactly when `securitySkipDir` says so. -/
def ScanSecurity (secretOrder : List String) (excludeDirs : List String)
    (root : FsTree) : SecurityEvidence :=
  scanSecurityWalkWith secretOrder (fun name => securitySkipDir name excludeDirs) "" root

/-! ### inference: report hashing (ComputeReportHash)

`ComputeReportHash` feeds `fmt.Sprintf("%s|%d|%d|%s", path, ts, count, flag)`
through `crypto/sha256` and keeps the first 16 hex characters.  SHA-256 is
embedded in full (FIPS 180-4) over byte lists, with 32-bit words as `Nat`
reduced `% 2^32`.  Note that the `%s` verb applied to the bool flag makes Go
render it as `%!s(bool=true)` / `%!s(bool=false)`; this changes nothing
about the hash's properties but is kept faithfully. -/

/-- The modulus of 32-bit words. -/
def M32 : Nat := 4294967296

/-- Right rotation of a 32-bit word. -/
def rotr32 (n x : Nat) : Nat := ((x >>> n) ||| (x <<< (32 - n))) % M32

/-- SHA-256 Σ0. -/
def bigSigma0 (x : Nat) : Nat := rotr32 2 x ^^^ rotr32 13 x ^^^ rotr32 22 x

/-- SHA-256 Σ1. -/
def bigSigma1 (x : Nat) : Nat := rotr32 6 x ^^^ rotr32 11 x ^^^ rotr32 25 x

/-- SHA-256 σ0. -/
def smallSigma0 (x : Nat) : Nat := rotr32 7 x ^^^ rotr32 18 x ^^^ (x >>> 3)

/-- SHA-256 σ1. -/
def smallSigma1 (x : Nat) : Nat := rotr32 17 x ^^^ rotr32 19 x ^^^ (x >>> 10)

/-- SHA-256 Ch. -/
def sha256Ch (x y z : Nat) : Nat := (x &&& y) ^^^ ((x ^^^ 4294967295) &&& z)

/-- SHA-256 Maj. -/
def sha256Maj (x y z : Nat) : Nat := (x &&& y) ^^^ (x &&& z) ^^^ (y &&& z)

/-- Eight 32-bit hash words. -/
structure H8 where
  e0 : Nat
  e1 : Nat
  e2 : Nat
  e3 : Nat
  e4 : Nat
  e5 : Nat
  e6 : Nat
  e7 : Nat
  deriving Repr, DecidableEq

/-- SHA-256 initial hash value (FIPS 180-4 §5.3.3, decimal). -/
def sha256Init : H8 :=
  ⟨1779033703, 3144134277, 1013904242, 2773480762,
   1359893119, 2600822924, 528734635, 1541459225⟩

/-- SHA-256 round constants (FIPS 180-4 §4.2.2, decimal). -/
def sha256K : List Nat :=
  [1116352408, 1899447441, 3049323471, 3921009573, 961987163, 1508970993,
   2453635748, 2870763221, 3624381080, 310598401, 607225278, 1426881987,
   1925078388, 2162078206, 2614888103, 3248222580, 3835390401, 4022224774,
   264347078, 604807628, 770255983, 1249150122, 1555081692, 1996064986,
   2554220882, 2821834349, 2952996808, 3210313671, 3336571891, 3584528711,
   113926993, 338241895, 666307205, 773529912, 1294757372, 1396182291,
   1695183700, 1986661051, 2177026350, 2456956037, 2730485921, 2820302411,
   3259730800, 3345764771, 3516065817, 3600352804, 4094571909, 275423344,
   430227734, 506948616, 659060556, 883997877, 958139571, 1322822218,
   1537002063, 1747873779, 1955562222, 2024104815, 2227730452, 2361852424,
   2428436474, 2756734187, 3204031479, 3329325298]

/-- Big-endian grouping of bytes into 32-bit words. -/
def bytesToWords : List Nat → List Nat
  | b1 :: b2 :: b3 :: b4 :: t =>
    (b1 * 16777216 + b2 * 65536 + b3 * 256 + b4) % M32 :: bytesToWords t
  | _ => []

/-- Message-schedule extension: appends `n` further words. -/
def sha256Extend : Nat → List Nat → List Nat
  | 0, w => w
  | Nat.succ n, w =>
    let g := fun i => w.getD (w.length - i) 0
    sha256Extend n
      (w ++ [(smallSigma1 (g 2) + g 7 + smallSigma0 (g 15) + g 16) % M32])

/-- One SHA-256 compression round; `kw` is the round constant paired with
the schedule word. -/
def sha256Round (st : H8) (kw : Nat × Nat) : H8 :=
  let t1 := (st.e7 + bigSigma1 st.e4 + sha256Ch st.e4 st.e5 st.e6 + kw.1 + kw.2) % M32
  let t2 := (bigSigma0 st.e0 + sha256Maj st.e0 st.e1 st.e2) % M32
  ⟨(t1 + t2) % M32, st.e0, st.e1, st.e2, (st.e3 + t1) % M32, st.e4, st.e5, st.e6⟩

/-- Compression of one 64-byte chunk. -/
def sha256Chunk (h : H8) (chunk : List Nat) : H8 :=
  let w := sha256Extend 48 (bytesToWords chunk)
  let st := (sha256K.zip w).foldl sha256Round h
  ⟨(h.e0 + st.e0) % M32, (h.e1 + st.e1) % M32, (h.e2 + st.e2) % M32,
   (h.e3 + st.e3) % M32, (h.e4 + st.e4) % M32, (h.e5 + st.e5) % M32,
   (h.e6 + st.e6) % M32, (h.e7 + st.e7) % M32⟩

/-- FIPS 180-4 padding: `0x80`, zeros to 56 mod 64, 64-bit big-endian bit
length. -/
def sha256Pad (msg : List Nat) : List Nat :=
  let bitLen := msg.length * 8
  let zeros := (64 + 55 - msg.length % 64) % 64
  msg ++ [0x80] ++ List.replicate zeros 0 ++
    ((List.range 8).map fun i => (bitLen >>> (8 * (7 - i))) % 256)

/-- Splits a byte list into 64-byte chunks. -/
def chunksOf64 : List Nat → List (List Nat)
  | [] => []
  | c :: t => (c :: t).take 64 :: chunksOf64 ((c :: t).drop 64)
termination_by l => l.length
decreasing_by simp [List.length_drop]; omega

/-- The eight final hash words of a byte message. -/
def sha256Words (msg : List Nat) : H8 :=
  (chunksOf64 (sha256Pad msg)).foldl sha256Chunk sha256Init

/-- Big-endian assembly of the eight hash words into one number. -/
def digestOfH8 (h : H8) : Nat :=
  ((((((h.e0 * M32 + h.e1) * M32 + h.e2) * M32 + h.e3) * M32 + h.e4) * M32 +
    h.e5) * M32 + h.e6) * M32 + h.e7

/-- The 256-bit digest as a natural number (big-endian word order, exactly
the byte order of Go's `sha256.Sum256`). -/
def sha256Nat (msg : List Nat) : Nat :=
  digestOfH8 (sha256Words msg)

/-- One lowercase hex digit. -/
def hexDigitChar (n : Nat) : Char :=
  if n < 10 then Char.ofNat (48 + n) else Char.ofNat (87 + n)

/-- Go `fmt.Sprintf("%x", hash)` on the 32-byte digest: 64 lowercase hex
characters, most significant nibble first. -/
def toHex64Chars (h : Nat) : List Char :=
  (List.range 64).map fun i => hexDigitChar (h / 16 ^ (63 - i) % 16)

/-- UTF-8 bytes of a string (Go strings are UTF-8 byte slices). -/
def goUTF8Bytes (s : String) : List Nat :=
  s.toUTF8.toList.map UInt8.toNat

/-- Go renders a bool under the (mismatched) `%s` verb as
`%!s(bool=true)` / `%!s(bool=false)`. -/
def goSprintfBoolS (b : Bool) : String :=
  if b then "%!s(bool=true)" else "%!s(bool=false)"

/-- The full digest of the report's identifying tuple: SHA-256 of
`path|unixTimestamp|findingCount|repoFlag`. -/
def reportDigest (report : Report) : Nat :=
  sha256Nat (goUTF8Bytes (report.TargetPath ++ "|" ++
    toString report.InvestigatedAt ++ "|" ++
    toString report.Findings.length ++ "|" ++
    goSprintfBoolS report.Evidence.Git.IsRepository))

/-- inference.ComputeReportHash: the hex digest truncated by `[:16]` — the
hex characters are ASCII, so slicing the first 16 bytes keeps the first 16
characters. -/
def ComputeReportHash (report : Report) : String :=
  String.mk ((toHex64Chars (reportDigest report)).take 16)

/-! ### Spec-side reference for the largest-files selection (C6) -/

/-- A file decorated with its walk-encounter index. -/
abbrev DecoratedFile := FileInfo × Nat

/-- Modelled from the spec: the ordering "descending by size; ties (equal
size) keep the relative order in which files were encountered during the
walk".  `a` comes strictly before `b` iff `a` is larger, or equally large
and encountered earlier. -/
def sizeIdxBefore (a b : DecoratedFile) : Prop :=
  b.1.Size < a.1.Size ∨ (a.1.Size = b.1.Size ∧ a.2 < b.2)

instance : DecidableRel sizeIdxBefore := fun a b => by
  unfold sizeIdxBefore; infer_instance

/-- Insertion into a list ordered by `sizeIdxBefore`. -/
def specInsertBySize (a : DecoratedFile) : List DecoratedFile → List DecoratedFile
  | [] => [a]
  | b :: t => if sizeIdxBefore a b then a :: b :: t else b :: specInsertBySize a t

/-- Modelled from the spec: insertion sort by `sizeIdxBefore` — the explicit
stable descending-by-size reference sort. -/
def specStableDescBySize (l : List DecoratedFile) : List DecoratedFile :=
  l.foldr specInsertBySize []

/-- Decorates the walk-encounter list with encounter indices. -/
def decorateWalkOrder (l : List FileInfo) : List DecoratedFile :=
  l.zip (List.range l.length)

/-- Modelled from the spec: "the full candidate list is sorted descending by
size and truncated to the first 10", ties keeping walk-encounter order. -/
def specLargestFiles (l : List FileInfo) : List FileInfo :=
  ((specStableDescBySize (decorateWalkOrder l)).map Prod.fst).take 10

/-- Family of reports used to exhibit a digest collision: `n` findings, all
other tuple fields fixed. -/
def c2ReportFamily (n : ℕ) : Report :=
  { TargetPath := "p", InvestigatedAt := 0,
    Findings := List.replicate n
      { Severity := SeverityLow, Title := "t", Description := "d" } }

/-! ## Theorems -/

/-! ### Health scoring (C1) -/

theorem severityDeduction_nonneg (s : Severity) : 0 ≤ severityDeduction s := by
  unfold severityDeduction
  split_ifs <;> norm_num

theorem applyFindingDeduction_brackets (b : HealthBreakdown) (f : Finding)
    (h : 0 ≤ b.VersionControl ∧ b.VersionControl ≤ 20 ∧
      0 ≤ b.CodeQuality ∧ b.CodeQuality ≤ 25 ∧
      0 ≤ b.Security ∧ b.Security ≤ 20 ∧
      0 ≤ b.Performance ∧ b.Performance ≤ 15 ∧
      0 ≤ b.Documentation ∧ b.Documentation ≤ 10 ∧
      0 ≤ b.Testing ∧ b.Testing ≤ 10) :
    0 ≤ (applyFindingDeduction b f).VersionControl ∧
      (applyFindingDeduction b f).VersionControl ≤ 20 ∧
      0 ≤ (applyFindingDeduction b f).CodeQuality ∧
      (applyFindingDeduction b f).CodeQuality ≤ 25 ∧
      0 ≤ (applyFindingDeduction b f).Security ∧
      (applyFindingDeduction b f).Security ≤ 20 ∧
      0 ≤ (applyFindingDeduction b f).Performance ∧
      (applyFindingDeduction b f).Performance ≤ 15 ∧
      0 ≤ (applyFindingDeduction b f).Documentation ∧
      (applyFindingDeduction b f).Documentation ≤ 10 ∧
      0 ≤ (applyFindingDeduction b f).Testing ∧
      (applyFindingDeduction b f).Testing ≤ 10 := by
  have hd := severityDeduction_nonneg f.Severity
  unfold applyFindingDeduction
  split_ifs <;> dsimp only <;> omega

theorem foldl_deduction_brackets (findings : List Finding) :
    ∀ b : HealthBreakdown,
      (0 ≤ b.VersionControl ∧ b.VersionControl ≤ 20 ∧
        0 ≤ b.CodeQuality ∧ b.CodeQuality ≤ 25 ∧
        0 ≤ b.Security ∧ b.Security ≤ 20 ∧
        0 ≤ b.Performance ∧ b.Performance ≤ 15 ∧
        0 ≤ b.Documentation ∧ b.Documentation ≤ 10 ∧
        0 ≤ b.Testing ∧ b.Testing ≤ 10) →
      0 ≤ (findings.foldl applyFindingDeduction b).VersionControl ∧
        (findings.foldl applyFindingDeduction b).VersionControl ≤ 20 ∧
        0 ≤ (findings.foldl applyFindingDeduction b).CodeQuality ∧
        (findings.foldl applyFindingDeduction b).CodeQuality ≤ 25 ∧
        0 ≤ (findings.foldl applyFindingDeduction b).Security ∧
        (findings.foldl applyFindingDeduction b).Security ≤ 20 ∧
        0 ≤ (findings.foldl applyFindingDeduction b).Performance ∧
        (findings.foldl applyFindingDeduction b).Performance ≤ 15 ∧
        0 ≤ (findings.foldl applyFindingDeduction b).Documentation ∧
        (findings.foldl applyFindingDeduction b).Documentation ≤ 10 ∧
        0 ≤ (findings.foldl applyFindingDeduction b).Testing ∧
        (findings.foldl applyFindingDeduction b).Testing ≤ 10 := by
  induction findings with
  | nil => intro b h; simpa using h
  | cons f t ih =>
    intro b h
    simp only [List.foldl_cons]
    exact ih _ (applyFindingDeduction_brackets b f h)

/-- C1: for every findings sequence and evidence,
`CalculateHealthScoreWeighted` keeps all six components of the breakdown
within their fixed brackets (VersionControl 0–20, CodeQuality 0–25, Security
0–20, Performance 0–15, Documentation 0–10, Testing 0–10), and the overall
score equals the sum of the six components, hence lies in [0, 100]. -/
theorem healthScoreWeighted_brackets_and_sum (findings : List Finding)
    (evidence : Evidence) :
    (CalculateHealthScoreWeighted findings evidence).1 =
        (CalculateHealthScoreWeighted findings evidence).2.VersionControl +
        (CalculateHealthScoreWeighted findings evidence).2.CodeQuality +
        (CalculateHealthScoreWeighted findings evidence).2.Security +
        (CalculateHealthScoreWeighted findings evidence).2.Performance +
        (CalculateHealthScoreWeighted findings evidence).2.Documentation +
        (CalculateHealthScoreWeighted findings evidence).2.Testing ∧
      0 ≤ (CalculateHealthScoreWeighted findings evidence).2.VersionControl ∧
      (CalculateHealthScoreWeighted findings evidence).2.VersionControl ≤ 20 ∧
      0 ≤ (CalculateHealthScoreWeighted findings evidence).2.CodeQuality ∧
      (CalculateHealthScoreWeighted findings evidence).2.CodeQuality ≤ 25 ∧
      0 ≤ (CalculateHealthScoreWeighted findings evidence).2.Security ∧
      (CalculateHealthScoreWeighted findings evidence).2.Security ≤ 20 ∧
      0 ≤ (CalculateHealthScoreWeighted findings evidence).2.Performance ∧
      (CalculateHealthScoreWeighted findings evidence).2.Performance ≤ 15 ∧
      0 ≤ (CalculateHealthScoreWeighted findings evidence).2.Documentation ∧
      (CalculateHealthScoreWeighted findings evidence).2.Documentation ≤ 10 ∧
      0 ≤ (CalculateHealthScoreWeighted findings evidence).2.Testing ∧
      (CalculateHealthScoreWeighted findings evidence).2.Testing ≤ 10 ∧
      0 ≤ (CalculateHealthScoreWeighted findings evidence).1 ∧
      (CalculateHealthScoreWeighted findings evidence).1 ≤ 100 := by
  have hfold := foldl_deduction_brackets findings
    { VersionControl := 20, CodeQuality := 25, Security := 20,
      Performance := 15, Documentation := 10, Testing := 10 }
    (by norm_num)
  unfold CalculateHealthScoreWeighted
  split_ifs <;> dsimp only <;> omega

/-! ### Contextualizer (C7, C9) -/

/-- C7: contextualizing under the `default` context returns the findings
unchanged, so doing it twice equals doing it once.  (The third clause of the
claim — the input is never mutated, the result being an independent copy —
is intrinsic to this embedding: `ContextualizeFindings` is a pure function
of an immutable list, which is exactly how the Go code behaves thanks to its
`make`+`copy` before any update.) -/
theorem contextualize_default_identity_idempotent (findings : List Finding) :
    ContextualizeFindings findings "default" = findings ∧
      ContextualizeFindings (ContextualizeFindings findings "default") "default" =
        ContextualizeFindings findings "default" := by
  have h : ContextualizeFindings findings "default" = findings := rfl
  exact ⟨h, by rw [h, h]⟩

/-- C9: any context string that is empty or does not spell one of the
recognized labels (`student`, `enterprise`, matched case-insensitively by
the code) behaves exactly like `default`: the findings come back unchanged
and no error exists (the function is total). -/
theorem contextualize_unrecognized_default (findings : List Finding)
    (context : String) (h1 : goToLower context ≠ "student")
    (h2 : goToLower context ≠ "enterprise") :
    ContextualizeFindings findings context = findings := by
  by_cases hc : context = ""
  · subst hc; rfl
  · simp only [ContextualizeFindings, if_neg hc, if_neg h1, if_neg h2]

theorem contextualize_unrecognized_default_witness :
    ContextualizeFindings
        [{ Severity := SeverityHigh, Title := "No Version Control",
           Description := "d" }] "Unknown-Mode" =
      [{ Severity := SeverityHigh, Title := "No Version Control",
         Description := "d" }] :=
  contextualize_unrecognized_default _ "Unknown-Mode" (by decide) (by decide)

/-! ### Git analyzer (C8) -/

/-- C8: when the path cannot be opened as a repository (`git.PlainOpen`
fails, in particular when there is no `.git` directory), `AnalyzeRepository`
returns `IsRepository = false` with every remaining field zero-valued, and a
`nil` error. -/
theorem analyzeRepository_no_repo_zeroed (now : Int) :
    AnalyzeRepository none now =
      ({ IsRepository := false, TotalCommits := 0, Contributors := 0,
         FirstCommitDate := none, LastCommitDate := none, RecentActivity := [],
         CommitFrequency := { Last7Days := 0, Last30Days := 0, Last90Days := 0,
                              AveragePerWeek := 0 },
         TopContributors := [], UncommittedChanges := false, BranchCount := 0,
         CommitMessageQuality := 0 }, none) := rfl

/-! ### Security scanner directory gating (C10) -/

/-- C10: `ScanSecurity` prunes hidden directories only through the loop over
`excludeDirs`.  With an empty exclusion list the walk is identical to a walk
that never skips anything — every directory, hidden ones such as `.git`
included, is descended into and its allow-listed files are scanned — while
with a non-empty list any dot-prefixed directory name is pruned. -/
theorem scanSecurity_excludeDirs_gate :
    (∀ (secretOrder : List String) (t : FsTree),
      ScanSecurity secretOrder [] t =
        scanSecurityWalkWith secretOrder (fun _ => false) "" t) ∧
    (∀ (name e : String) (rest : List String), goStartsWith name "." = true →
      securitySkipDir name (e :: rest) = true) := by
  constructor
  · intro secretOrder t
    unfold ScanSecurity
    rw [show (fun name => securitySkipDir name ([] : List String)) =
      (fun _ : String => false) from funext fun n => rfl]
  · intro name e rest h
    simp [securitySkipDir, h]

theorem scanSecurity_excludeDirs_gate_witness :
    securitySkipDir ".git" ["vendor"] = true :=
  scanSecurity_excludeDirs_gate.2 ".git" "vendor" [] (by decide)

/-! ### Marker emission order (C5) -/

/-- C5 (failing part): the per-line marker loop iterates the
`markerPatterns` Go map, whose iteration order is unspecified and varies
between runs.  On a line matching two patterns, two orders that are both
enumerations of the same key set emit the two markers in different
sequences, so the pipeline output is not a function of the scanned tree
alone — repeated runs need not be identical, contradicting the determinism
requirement. -/
theorem markerEmission_order_dependent :
    ["TODO", "FIXME", "HACK", "BUG", "NOTE"].Perm markerKeys ∧
      ["FIXME", "TODO", "HACK", "BUG", "NOTE"].Perm markerKeys ∧
      scanCodeMarkersLine ["TODO", "FIXME", "HACK", "BUG", "NOTE"] "app.go" 1
          "//TODO: //FIXME: broken" ≠
        scanCodeMarkersLine ["FIXME", "TODO", "HACK", "BUG", "NOTE"] "app.go" 1
          "//TODO: //FIXME: broken" :=
  ⟨by decide, by decide, by decide⟩

/-! ### Hardcoded secrets are Critical (C4) -/

/-- C4: whenever the collected SecurityEvidence holds at least one hardcoded
secret, the findings of the inference engine contain a security-category
finding about the hardcoded secrets whose severity is Critical.  The engine
is `GenerateFindingsEnhanced`, the one whose rules coincide with the spec's
§4.7 table (the pipeline driver under `cmd/detective` is outside the given
sources; the spec's table fixes Critical for secrets, which is this
engine's `analyzeSecurityEvidence`). -/
theorem secretFindings_critical (evidence : Evidence)
    (h : evidence.Security.HardcodedSecrets ≠ []) :
    ∃ f ∈ GenerateFindingsEnhanced evidence,
      f.Category = FindingSecurity ∧ f.Severity = SeverityCritical ∧
      f.Title = "Hardcoded Secrets Detected" := by
  have hlen : evidence.Security.HardcodedSecrets.length > 0 :=
    List.length_pos.mpr h
  refine ⟨{ Severity := SeverityCritical
            Title := "Hardcoded Secrets Detected"
            Description := "Found " ++ toString evidence.Security.HardcodedSecrets.length ++
              " potential hardcoded secrets (API keys, passwords, tokens). This is a critical security risk."
            Evidence := buildSecretEvidence evidence.Security.HardcodedSecrets
            Category := FindingSecurity
            Recommendations :=
              ["IMMEDIATE: Remove secrets from code and rotate compromised credentials",
               "Use environment variables or secret management tools (Vault, AWS Secrets Manager)",
               "Add .env to .gitignore and provide .env.example template",
               "Use git-secrets or pre-commit hooks to prevent future leaks",
               "Review git history and purge secrets if already committed"] }, ?_, rfl, rfl, rfl⟩
  unfold GenerateFindingsEnhanced
  apply List.mem_append_left
  apply List.mem_append_right
  unfold analyzeSecurityEvidence
  rw [if_pos hlen]
  apply List.mem_append_left
  apply List.mem_append_left
  apply List.mem_append_left
  exact List.mem_singleton_self _

theorem secretFindings_critical_witness :
    ∃ f ∈ GenerateFindingsEnhanced
        { Security := { HardcodedSecrets :=
            [{ File := "config.yml", Line := 3, «Type» := "api-key",
               Pattern := "api_key = \"abcdefghij0123456789\"" }] } },
      f.Category = FindingSecurity ∧ f.Severity = SeverityCritical ∧
      f.Title = "Hardcoded Secrets Detected" :=
  secretFindings_critical _ (by simp)

/-! ### Correctness of the source's bubble-sort loops (shared by C3 and C6) -/

theorem bubblePassAux_perm (w : α → Int) :
    ∀ (l : List α) (a : α), (bubblePassAux w a l).Perm (a :: l) := by
  intro l
  induction l with
  | nil => intro a; simp [bubblePassAux]
  | cons b t ih =>
    intro a
    rw [bubblePassAux]
    by_cases h : w a < w b
    · rw [if_pos h]
      exact ((ih a).cons b).trans (List.Perm.swap a b t)
    · rw [if_neg h]
      exact (ih b).cons a

theorem bubblePass_perm (w : α → Int) : ∀ l : List α, (bubblePass w l).Perm l := by
  intro l
  cases l with
  | nil => simp [bubblePass]
  | cons a t => exact bubblePassAux_perm w t a

theorem bubblePassAux_min (w : α → Int) :
    ∀ (l : List α) (a : α),
      ∃ init last, bubblePassAux w a l = init ++ [last] ∧
        ∀ x ∈ a :: l, w last ≤ w x := by
  intro l
  induction l with
  | nil => intro a; exact ⟨[], a, rfl, by simp⟩
  | cons b t ih =>
    intro a
    rw [bubblePassAux]
    by_cases h : w a < w b
    · obtain ⟨init, last, heq, hmin⟩ := ih a
      refine ⟨b :: init, last, by rw [if_pos h, heq]; rfl, ?_⟩
      intro x hx
      rcases List.mem_cons.mp hx with rfl | hx2
      · exact hmin x (by simp)
      · rcases List.mem_cons.mp hx2 with rfl | hx3
        · exact le_of_lt (lt_of_le_of_lt (hmin a (by simp)) h)
        · exact hmin x (List.mem_cons_of_mem a hx3)
    · obtain ⟨init, last, heq, hmin⟩ := ih b
      refine ⟨a :: init, last, by rw [if_neg h, heq]; rfl, ?_⟩
      intro x hx
      rcases List.mem_cons.mp hx with rfl | hx2
      · exact le_trans (hmin b (by simp)) (not_lt.mp h)
      · exact hmin x hx2

/-- One pass deposits a minimum-weight element at the end. -/
theorem bubblePass_min (w : α → Int) :
    ∀ l : List α, l ≠ [] →
      ∃ init last, bubblePass w l = init ++ [last] ∧ ∀ x ∈ l, w last ≤ w x := by
  intro l hl
  cases l with
  | nil => exact absurd rfl hl
  | cons a t => exact bubblePassAux_min w t a

theorem bubblePassAux_pairwise (w : α → Int) (Q : α → α → Prop)
    (hQ : ∀ a b, w a < w b → Q b a) :
    ∀ (l : List α) (a : α), (a :: l).Pairwise Q →
      (bubblePassAux w a l).Pairwise Q := by
  intro l
  induction l with
  | nil => intro a _; simp [bubblePassAux]
  | cons b t ih =>
    intro a hp
    rcases List.pairwise_cons.mp hp with ⟨ha, hp'⟩
    rcases List.pairwise_cons.mp hp' with ⟨hb, hpt⟩
    rw [bubblePassAux]
    by_cases h : w a < w b
    · rw [if_pos h]
      refine List.pairwise_cons.mpr ⟨?_, ih a (List.pairwise_cons.mpr
        ⟨fun x hx => ha x (List.mem_cons_of_mem b hx), hpt⟩)⟩
      intro x hx
      rcases List.mem_cons.mp ((bubblePassAux_perm w t a).mem_iff.mp hx) with rfl | hx'
      · exact hQ x b h
      · exact hb x hx'
    · rw [if_neg h]
      refine List.pairwise_cons.mpr ⟨?_, ih b hp'⟩
      intro x hx
      exact ha x ((bubblePassAux_perm w t b).mem_iff.mp hx)

/-- One pass preserves any pairwise relation that holds vacuously between
strictly weight-ordered pairs (in particular "equal weights keep their
original relative order": the pass never swaps equal weights). -/
theorem bubblePass_pairwise (w : α → Int) (Q : α → α → Prop)
    (hQ : ∀ a b, w a < w b → Q b a) :
    ∀ l : List α, l.Pairwise Q → (bubblePass w l).Pairwise Q := by
  intro l hp
  cases l with
  | nil => simp [bubblePass]
  | cons a t => exact bubblePassAux_pairwise w Q hQ t a hp

/-- `dropLast` and the optional last element reassemble the list. -/
theorem dropLast_append_getLast?_toList (l : List α) :
    l.dropLast ++ l.getLast?.toList = l := by
  induction l with
  | nil => rfl
  | cons a t ih =>
    cases t with
    | nil => simp
    | cons b t2 => simp_all [List.getLast?_cons_cons]

theorem bubbleGoAux_perm (w : α → Int) :
    ∀ (k : Nat) (l : List α), (bubbleGoAux w k l).Perm l := by
  intro k
  induction k with
  | zero => intro l; exact List.Perm.refl l
  | succ k ih =>
    intro l
    show (bubbleGoAux w k (bubblePass w l).dropLast ++
      (bubblePass w l).getLast?.toList).Perm l
    exact ((ih _).append_right _).trans
      (by rw [dropLast_append_getLast?_toList]; exact bubblePass_perm w l)

/-- Enough passes fully sort by weight descending. -/
theorem bubbleGoAux_sorted (w : α → Int) :
    ∀ (k : Nat) (l : List α), l.length ≤ k + 1 →
      (bubbleGoAux w k l).Pairwise (fun a b => w b ≤ w a) := by
  intro k
  induction k with
  | zero =>
    intro l hl
    match l, hl with
    | [], _ => simp [bubbleGoAux]
    | [a], _ => simp [bubbleGoAux]
  | succ k ih =>
    intro l hl
    by_cases hnil : l = []
    · subst hnil
      show ((bubbleGoAux w k (bubblePass w ([] : List α)).dropLast ++
        (bubblePass w ([] : List α)).getLast?.toList)).Pairwise _
      simpa [bubblePass, bubbleGoAux] using ih [] (by simp)
    · obtain ⟨init, last, heq, hmin⟩ := bubblePass_min w l hnil
      have hlen : init.length + 1 = l.length := by
        have := (bubblePass_perm w l).length_eq
        rw [heq] at this
        simpa using this
      show (bubbleGoAux w k (bubblePass w l).dropLast ++
        (bubblePass w l).getLast?.toList).Pairwise _
      rw [heq, List.dropLast_concat, List.getLast?_concat]
      apply List.pairwise_append.mpr
      refine ⟨ih init (by omega), by simp, ?_⟩
      intro x hx y hy
      simp only [Option.toList_some, List.mem_singleton] at hy
      subst hy
      have hxinit : x ∈ init := (bubbleGoAux_perm w k init).mem_iff.mp hx
      have hxl : x ∈ l := by
        have : x ∈ bubblePass w l := by rw [heq]; exact List.mem_append_left _ hxinit
        exact (bubblePass_perm w l).mem_iff.mp this
      exact hmin x hxl

/-- The whole loop preserves pairwise relations that are vacuous between
strictly weight-ordered pairs. -/
theorem bubbleGoAux_pairwise (w : α → Int) (Q : α → α → Prop)
    (hQ : ∀ a b, w a < w b → Q b a) :
    ∀ (k : Nat) (l : List α), l.Pairwise Q → (bubbleGoAux w k l).Pairwise Q := by
  intro k
  induction k with
  | zero => intro l h; exact h
  | succ k ih =>
    intro l hp
    have hp' : (bubblePass w l).Pairwise Q := bubblePass_pairwise w Q hQ l hp
    have hsplit : ((bubblePass w l).dropLast ++
        (bubblePass w l).getLast?.toList).Pairwise Q := by
      rw [dropLast_append_getLast?_toList]; exact hp'
    rcases List.pairwise_append.mp hsplit with ⟨hinit, hlast, hcross⟩
    show (bubbleGoAux w k (bubblePass w l).dropLast ++
      (bubblePass w l).getLast?.toList).Pairwise Q
    apply List.pairwise_append.mpr
    refine ⟨ih _ hinit, hlast, ?_⟩
    intro x hx y hy
    exact hcross x ((bubbleGoAux_perm w k _).mem_iff.mp hx) y hy

theorem bubblePassAux_map (f : β → α) (w : α → Int) :
    ∀ (l : List β) (a : β),
      (bubblePassAux (fun x => w (f x)) a l).map f =
        bubblePassAux w (f a) (l.map f) := by
  intro l
  induction l with
  | nil => intro a; rfl
  | cons b t ih =>
    intro a
    rw [bubblePassAux, List.map_cons, bubblePassAux]
    by_cases h : w (f a) < w (f b)
    · rw [if_pos h, if_pos h, List.map_cons, ih]
    · rw [if_neg h, if_neg h, List.map_cons, ih]

/-- The pass commutes with projections that determine the weight. -/
theorem bubblePass_map (f : β → α) (w : α → Int) :
    ∀ l : List β, (bubblePass (fun x => w (f x)) l).map f = bubblePass w (l.map f) := by
  intro l
  cases l with
  | nil => rfl
  | cons a t => exact bubblePassAux_map f w t a

theorem option_toList_map (f : α → β) (o : Option α) :
    (o.map f).toList = o.toList.map f := by
  cases o <;> simp

/-- The whole loop commutes with projections that determine the weight. -/
theorem bubbleGoAux_map (f : β → α) (w : α → Int) :
    ∀ (k : Nat) (l : List β),
      (bubbleGoAux (fun x => w (f x)) k l).map f = bubbleGoAux w k (l.map f) := by
  intro k
  induction k with
  | zero => intro l; rfl
  | succ k ih =>
    intro l
    show (bubbleGoAux (fun x => w (f x)) k (bubblePass (fun x => w (f x)) l).dropLast ++
        (bubblePass (fun x => w (f x)) l).getLast?.toList).map f =
      bubbleGoAux w k (bubblePass w (l.map f)).dropLast ++
        (bubblePass w (l.map f)).getLast?.toList
    rw [← bubblePass_map f w l, ← List.map_dropLast, ← ih, List.getLast?_map,
      option_toList_map, List.map_append]

/-! ### Top contributors (C3) -/

/-- Taking the first five of a sufficiently-bubbled list yields a sorted
slice, a split of a permutation, and dominance of the slice over the rest. -/
theorem bubble_take_props (w : α → Int) (k : Nat) (l : List α)
    (hk : l.length ≤ k + 1) :
    ((bubbleGoAux w k l).take 5).length = min 5 l.length ∧
    ((bubbleGoAux w k l).take 5).Pairwise (fun a b => w b ≤ w a) ∧
    ((bubbleGoAux w k l).take 5 ++ (bubbleGoAux w k l).drop 5).Perm l ∧
    (∀ a ∈ (bubbleGoAux w k l).take 5, ∀ b ∈ (bubbleGoAux w k l).drop 5,
      w b ≤ w a) := by
  have hperm := bubbleGoAux_perm w k l
  have hsorted := bubbleGoAux_sorted w k l hk
  have hlen := hperm.length_eq
  refine ⟨?_, List.Pairwise.sublist (List.take_sublist _ _) hsorted, ?_, ?_⟩
  · rw [List.length_take]; omega
  · rw [List.take_append_drop]; exact hperm
  · have h2 := hsorted
    rw [← List.take_append_drop 5 (bubbleGoAux w k l)] at h2
    exact fun a ha b hb => (List.pairwise_append.mp h2).2.2 a ha b hb

/-- The trailing `if len > 5` truncation always equals `take 5`. -/
theorem goTopContributors_eq (contribs : List ContributorInfo) (commitCount : Int) :
    goTopContributors contribs commitCount =
      (bubbleGoAux (fun c : ContributorInfo => c.Commits)
        (min ((assignPercents commitCount contribs).length - 1) 5)
        (assignPercents commitCount contribs)).take 5 := by
  simp only [goTopContributors]
  split
  · rfl
  · next h => exact (List.take_of_length_le (Nat.le_of_not_lt h)).symm

/-- C3 (amended): with at most six distinct contributors, the capped bubble
sort amounts to a full sort, and `TopContributors` really is the
min(5, n) contributors of highest commit count in descending order, each
carrying percentage `commits / total * 100`, for every encounter order of
the contributor map.  (With seven or more contributors the five passes are
too few; see the counterexample.) -/
theorem topContributors_top5_of_few (contribs : List ContributorInfo)
    (commitCount : Int) (h : contribs.length ≤ 6) :
    (goTopContributors contribs commitCount).length = min 5 contribs.length ∧
    (goTopContributors contribs commitCount).Pairwise
      (fun a b => b.Commits ≤ a.Commits) ∧
    (∃ rest, (goTopContributors contribs commitCount ++ rest).Perm
        (assignPercents commitCount contribs) ∧
      ∀ a ∈ goTopContributors contribs commitCount, ∀ b ∈ rest,
        b.Commits ≤ a.Commits) ∧
    ∀ c ∈ goTopContributors contribs commitCount,
      c.Percent = (c.Commits : ℚ) / (commitCount : ℚ) * 100 := by
  have hmlen : (assignPercents commitCount contribs).length = contribs.length :=
    List.length_map _ _
  have hk : min ((assignPercents commitCount contribs).length - 1) 5 =
      (assignPercents commitCount contribs).length - 1 := by omega
  have hprops := bubble_take_props (fun c : ContributorInfo => c.Commits)
    ((assignPercents commitCount contribs).length - 1)
    (assignPercents commitCount contribs) (by omega)
  obtain ⟨hl, hp, hperm, hcross⟩ := hprops
  rw [goTopContributors_eq, hk]
  refine ⟨by rw [hl]; omega, hp,
    ⟨(bubbleGoAux (fun c : ContributorInfo => c.Commits)
        ((assignPercents commitCount contribs).length - 1)
        (assignPercents commitCount contribs)).drop 5, hperm, hcross⟩, ?_⟩
  intro c hc
  have hcs : c ∈ assignPercents commitCount contribs :=
    (bubbleGoAux_perm _ _ _).mem_iff.mp (List.take_subset _ _ hc)
  obtain ⟨orig, -, rfl⟩ := List.mem_map.mp hcs
  rfl

theorem topContributors_top5_of_few_witness :
    ([⟨"a", "a@x", 1, 0⟩, ⟨"b", "b@x", 3, 0⟩,
      ⟨"c", "c@x", 2, 0⟩] : List ContributorInfo).length ≤ 6 ∧
    (goTopContributors
        [⟨"a", "a@x", 1, 0⟩, ⟨"b", "b@x", 3, 0⟩, ⟨"c", "c@x", 2, 0⟩]
        6).Pairwise (fun a b => b.Commits ≤ a.Commits) :=
  ⟨by decide,
    (topContributors_top5_of_few
      [⟨"a", "a@x", 1, 0⟩, ⟨"b", "b@x", 3, 0⟩, ⟨"c", "c@x", 2, 0⟩]
      6 (by decide)).2.1⟩

/-- C3 (counterexample): with seven contributors — the heaviest committer
encountered last — the five-pass bubble loop leaves the maximum in second
position, so the returned first-five slice is not ordered by commit count
descending.  This refutes the claim as stated, which asserts the property
for every encounter order of the aggregation map. -/
theorem topContributors_order_refuted :
    ¬ (goTopContributors
        [⟨"a", "a@x", 6, 0⟩, ⟨"b", "b@x", 5, 0⟩, ⟨"c", "c@x", 4, 0⟩,
         ⟨"d", "d@x", 3, 0⟩, ⟨"e", "e@x", 2, 0⟩, ⟨"f", "f@x", 1, 0⟩,
         ⟨"g", "g@x", 100, 0⟩] 121).Pairwise
      (fun a b => b.Commits ≤ a.Commits) := by decide

/-! ### Largest files: the full bubble sort is the stable descending sort (C6) -/

theorem sizeIdxBefore_asymm :
    ∀ a b : DecoratedFile, sizeIdxBefore a b → ¬ sizeIdxBefore b a := by
  intro a b h1 h2
  unfold sizeIdxBefore at *
  omega

theorem sizeIdxBefore_trans :
    ∀ a b c : DecoratedFile, sizeIdxBefore a b → sizeIdxBefore b c →
      sizeIdxBefore a c := by
  intro a b c h1 h2
  unfold sizeIdxBefore at *
  omega

theorem specInsertBySize_perm :
    ∀ (l : List DecoratedFile) (a : DecoratedFile),
      (specInsertBySize a l).Perm (a :: l) := by
  intro l
  induction l with
  | nil => intro a; simp [specInsertBySize]
  | cons b t ih =>
    intro a
    rw [specInsertBySize]
    by_cases h : sizeIdxBefore a b
    · rw [if_pos h]
    · rw [if_neg h]
      exact ((ih a).cons b).trans (List.Perm.swap a b t)

theorem specStableDescBySize_perm (l : List DecoratedFile) :
    (specStableDescBySize l).Perm l := by
  induction l with
  | nil => simp [specStableDescBySize]
  | cons a t ih =>
    show (specInsertBySize a (specStableDescBySize t)).Perm (a :: t)
    exact (specInsertBySize_perm _ a).trans (ih.cons a)

theorem specInsertBySize_pairwise :
    ∀ (l : List DecoratedFile) (a : DecoratedFile),
      l.Pairwise (fun x y => ¬ sizeIdxBefore y x) →
      (specInsertBySize a l).Pairwise (fun x y => ¬ sizeIdxBefore y x) := by
  intro l
  induction l with
  | nil => intro a _; simp [specInsertBySize]
  | cons b t ih =>
    intro a hp
    rcases List.pairwise_cons.mp hp with ⟨hb, hpt⟩
    rw [specInsertBySize]
    by_cases h : sizeIdxBefore a b
    · rw [if_pos h]
      refine List.pairwise_cons.mpr ⟨?_, hp⟩
      intro x hx
      rcases List.mem_cons.mp hx with rfl | hx'
      · exact sizeIdxBefore_asymm a x h
      · intro hxa
        exact hb x hx' (sizeIdxBefore_trans x a b hxa h)
    · rw [if_neg h]
      refine List.pairwise_cons.mpr ⟨?_, ih a hpt⟩
      intro y hy
      rcases List.mem_cons.mp ((specInsertBySize_perm t a).mem_iff.mp hy) with rfl | hy'
      · exact h
      · exact hb y hy'

theorem specStableDescBySize_pairwise (l : List DecoratedFile) :
    (specStableDescBySize l).Pairwise (fun x y => ¬ sizeIdxBefore y x) := by
  induction l with
  | nil => simp [specStableDescBySize]
  | cons a t ih => exact specInsertBySize_pairwise _ a ih

/-- Two permutations of each other that are both pairwise-sorted by an
asymmetric relation coincide. -/
theorem perm_pairwise_asymm_eq {R : α → α → Prop}
    (hA : ∀ a b, R a b → ¬ R b a) :
    ∀ l₁ l₂ : List α, l₁.Perm l₂ → l₁.Pairwise R → l₂.Pairwise R → l₁ = l₂ := by
  intro l₁
  induction l₁ with
  | nil =>
    intro l₂ hp _ _
    exact (hp.symm.eq_nil).symm
  | cons a t ih =>
    intro l₂ hp h1 h2
    cases l₂ with
    | nil => exact absurd hp.eq_nil (by simp)
    | cons b t₂ =>
      have hab : a = b := by
        by_contra hne
        have ha2 : a ∈ b :: t₂ := hp.mem_iff.mp (by simp)
        have hb1 : b ∈ a :: t := hp.mem_iff.mpr (by simp)
        have ha2' : a ∈ t₂ := by
          rcases List.mem_cons.mp ha2 with h | h
          · exact absurd h hne
          · exact h
        have hb1' : b ∈ t := by
          rcases List.mem_cons.mp hb1 with h | h
          · exact absurd h.symm hne
          · exact h
        exact hA a b (List.rel_of_pairwise_cons h1 hb1')
          (List.rel_of_pairwise_cons h2 ha2')
      subst hab
      rw [ih t₂ hp.cons_inv (List.Pairwise.of_cons h1) (List.Pairwise.of_cons h2)]

/-- The decorated bubble sort with a full complement of passes equals the
stable insertion sort by the (size, walk-index) key. -/
theorem bubble_dec_eq_spec (l : List FileInfo) :
    bubbleGoAux (fun d : DecoratedFile => d.1.Size) (l.length - 1)
        (decorateWalkOrder l) =
      specStableDescBySize (decorateWalkOrder l) := by
  have hdlen : (decorateWalkOrder l).length = l.length := by
    simp [decorateWalkOrder]
  have hsnd : (decorateWalkOrder l).Pairwise (fun a b => a.2 < b.2) := by
    have hmap : (decorateWalkOrder l).map Prod.snd = List.range l.length :=
      List.map_snd_zip _ _ (by simp)
    have h := List.pairwise_lt_range l.length
    rw [← hmap] at h
    exact List.pairwise_map.mp h
  have hsnd' : (decorateWalkOrder l).Pairwise
      (fun a b => a.1.Size = b.1.Size → a.2 < b.2) := by
    refine hsnd.imp ?_
    intro a b h _
    exact h
  have hQ := bubbleGoAux_pairwise (fun d : DecoratedFile => d.1.Size)
    (fun a b => a.1.Size = b.1.Size → a.2 < b.2)
    (fun a b hlt => by dsimp only at hlt; intro heq; omega)
    (l.length - 1) (decorateWalkOrder l) hsnd'
  have hS := bubbleGoAux_sorted (fun d : DecoratedFile => d.1.Size)
    (l.length - 1) (decorateWalkOrder l) (by omega)
  have hb1 : (bubbleGoAux (fun d : DecoratedFile => d.1.Size) (l.length - 1)
      (decorateWalkOrder l)).Pairwise sizeIdxBefore := by
    refine (hS.and hQ).imp ?_
    intro a b hab
    obtain ⟨hle, him⟩ := hab
    dsimp only at hle him
    unfold sizeIdxBefore
    omega
  have hspec_perm := specStableDescBySize_perm (decorateWalkOrder l)
  have hne : (specStableDescBySize (decorateWalkOrder l)).Pairwise
      (fun a b : DecoratedFile => a.2 ≠ b.2) := by
    exact (hspec_perm.pairwise_iff (fun h => Ne.symm h)).mpr
      (hsnd.imp fun h => Nat.ne_of_lt h)
  have hb2 : (specStableDescBySize (decorateWalkOrder l)).Pairwise
      sizeIdxBefore := by
    refine ((specStableDescBySize_pairwise (decorateWalkOrder l)).and hne).imp ?_
    intro a b hab
    obtain ⟨hnb, hneq⟩ := hab
    unfold sizeIdxBefore at hnb ⊢
    omega
  exact perm_pairwise_asymm_eq sizeIdxBefore_asymm _ _
    ((bubbleGoAux_perm _ _ _).trans hspec_perm.symm) hb1 hb2

/-- C6: `goLargestFiles` — the post-walk selection of ScanFileSystem — has
length at most 10, is sorted by size descending, and equals the stable
reference selection: sort descending by size with equal sizes kept in
walk-encounter order, then truncate to 10.  The function is pure, so two
runs on an unchanged tree (the same encounter list) trivially return the
identical sequence. -/
theorem largestFiles_top10_stable_desc (files : List FileInfo) :
    (goLargestFiles files).length ≤ 10 ∧
    (goLargestFiles files).Pairwise (fun a b => b.Size ≤ a.Size) ∧
    goLargestFiles files = specLargestFiles files := by
  match files with
  | [] => exact ⟨by simp [goLargestFiles], by simp [goLargestFiles], rfl⟩
  | [f] => exact ⟨by simp [goLargestFiles], by simp [goLargestFiles], rfl⟩
  | a :: b :: t =>
    have h1 : (a :: b :: t).length > 1 := by simp
    have hgo : goLargestFiles (a :: b :: t) =
        (bubbleGoAux (fun f : FileInfo => f.Size) ((a :: b :: t).length - 1)
          (a :: b :: t)).take 10 := by
      simp only [goLargestFiles]
      rw [if_pos h1]
      split
      · rfl
      · next h => exact (List.take_of_length_le (Nat.le_of_not_lt h)).symm
    have hsorted := bubbleGoAux_sorted (fun f : FileInfo => f.Size)
      ((a :: b :: t).length - 1) (a :: b :: t)
      (by simp only [List.length_cons]; omega)
    refine ⟨?_, ?_, ?_⟩
    · rw [hgo, List.length_take]; omega
    · rw [hgo]
      exact List.Pairwise.sublist (List.take_sublist _ _) hsorted
    · have hmapfst : (decorateWalkOrder (a :: b :: t)).map Prod.fst = a :: b :: t :=
        List.map_fst_zip _ _ (by simp)
      have htrans : bubbleGoAux (fun f : FileInfo => f.Size)
          ((a :: b :: t).length - 1) (a :: b :: t) =
          (bubbleGoAux (fun d : DecoratedFile => d.1.Size)
            ((a :: b :: t).length - 1) (decorateWalkOrder (a :: b :: t))).map
            Prod.fst := by
        exact ((bubbleGoAux_map Prod.fst (fun f : FileInfo => f.Size) _ _).trans
          (by rw [hmapfst])).symm
      rw [hgo, htrans, bubble_dec_eq_spec]
      rfl

/-! ### Report hash (C2) -/

theorem sha256Chunk_bounds (h : H8) (chunk : List Nat) :
    (sha256Chunk h chunk).e0 < M32 ∧ (sha256Chunk h chunk).e1 < M32 ∧
    (sha256Chunk h chunk).e2 < M32 ∧ (sha256Chunk h chunk).e3 < M32 ∧
    (sha256Chunk h chunk).e4 < M32 ∧ (sha256Chunk h chunk).e5 < M32 ∧
    (sha256Chunk h chunk).e6 < M32 ∧ (sha256Chunk h chunk).e7 < M32 := by
  simp only [sha256Chunk]
  refine ⟨?_, ?_, ?_, ?_, ?_, ?_, ?_, ?_⟩ <;>
    exact Nat.mod_lt _ (by norm_num [M32])

theorem foldl_sha256Chunk_bounds (chunks : List (List Nat)) :
    ∀ st : H8,
      (st.e0 < M32 ∧ st.e1 < M32 ∧ st.e2 < M32 ∧ st.e3 < M32 ∧
        st.e4 < M32 ∧ st.e5 < M32 ∧ st.e6 < M32 ∧ st.e7 < M32) →
      ((chunks.foldl sha256Chunk st).e0 < M32 ∧
        (chunks.foldl sha256Chunk st).e1 < M32 ∧
        (chunks.foldl sha256Chunk st).e2 < M32 ∧
        (chunks.foldl sha256Chunk st).e3 < M32 ∧
        (chunks.foldl sha256Chunk st).e4 < M32 ∧
        (chunks.foldl sha256Chunk st).e5 < M32 ∧
        (chunks.foldl sha256Chunk st).e6 < M32 ∧
        (chunks.foldl sha256Chunk st).e7 < M32) := by
  induction chunks with
  | nil => intro st h; exact h
  | cons c t ih =>
    intro st _
    simp only [List.foldl_cons]
    exact ih _ (sha256Chunk_bounds st c)

theorem sha256Nat_lt (msg : List Nat) : sha256Nat msg < 2 ^ 256 := by
  obtain ⟨h0, h1, h2, h3, h4, h5, h6, h7⟩ :=
    foldl_sha256Chunk_bounds (chunksOf64 (sha256Pad msg)) sha256Init
      (by norm_num [sha256Init, M32])
  unfold sha256Nat digestOfH8 sha256Words
  unfold M32 at *
  have hp : (2 : ℕ) ^ 256 =
      115792089237316195423570985008687907853269984665640564039457584007913129639936 := by
    norm_num
  rw [hp]
  omega

theorem reportDigest_lt (r : Report) : reportDigest r < 2 ^ 256 :=
  sha256Nat_lt _

/-- The first 16 hex characters of the digest depend only on its top 64
bits. -/
theorem toHex64Chars_take16_congr (h1 h2 : Nat)
    (he : h1 / 2 ^ 192 = h2 / 2 ^ 192) :
    (toHex64Chars h1).take 16 = (toHex64Chars h2).take 16 := by
  unfold toHex64Chars
  rw [← List.map_take, ← List.map_take, List.take_range]
  apply List.map_congr_left
  intro i hi
  have hi16 : i < 16 := by
    have := List.mem_range.mp hi
    omega
  have hpow : (16 : ℕ) ^ (63 - i) = 2 ^ 192 * 16 ^ (15 - i) := by
    have hsplit : 63 - i = 48 + (15 - i) := by omega
    rw [hsplit, pow_add]
    congr 1
  rw [hpow, ← Nat.div_div_eq_div_mul, ← Nat.div_div_eq_div_mul, he]

/-- C2 (amended): `ComputeReportHash` is a pure function of the tuple
(target path, investigation timestamp, finding count, repository flag): two
reports with identical tuples always hash to the same digest.  (The converse
direction of the claim — distinct tuples always hash differently — is false;
see the refutation below.) -/
theorem computeReportHash_pure_in_tuple (r1 r2 : Report)
    (h1 : r1.TargetPath = r2.TargetPath)
    (h2 : r1.InvestigatedAt = r2.InvestigatedAt)
    (h3 : r1.Findings.length = r2.Findings.length)
    (h4 : r1.Evidence.Git.IsRepository = r2.Evidence.Git.IsRepository) :
    ComputeReportHash r1 = ComputeReportHash r2 := by
  unfold ComputeReportHash reportDigest
  rw [h1, h2, h3, h4]

theorem computeReportHash_pure_in_tuple_witness :
    ComputeReportHash
        { TargetPath := "p", InvestigatedAt := 5,
          Findings := [{ Severity := SeverityLow, Title := "A",
                         Description := "x" }] } =
      ComputeReportHash
        { TargetPath := "p", InvestigatedAt := 5,
          Findings := [{ Severity := SeverityHigh, Title := "B",
                         Description := "y" }],
          HealthScore := 80 } :=
  computeReportHash_pure_in_tuple _ _ rfl rfl rfl rfl

/-- C2 (counterexample): the digest keeps only 16 hex characters — 64 bits —
so over the infinitely many reports `c2ReportFamily n` (which differ
pairwise in the finding-count field of the tuple) two must collide; hence
"tuples differing in at least one field always hash to different digests" is
false. -/
theorem computeReportHash_injectivity_refuted :
    ¬ (∀ r1 r2 : Report,
        (r1.TargetPath ≠ r2.TargetPath ∨ r1.InvestigatedAt ≠ r2.InvestigatedAt ∨
          r1.Findings.length ≠ r2.Findings.length ∨
          r1.Evidence.Git.IsRepository ≠ r2.Evidence.Git.IsRepository) →
        ComputeReportHash r1 ≠ ComputeReportHash r2) := by
  intro hinj
  have hbound : ∀ n : ℕ,
      reportDigest (c2ReportFamily n) / 2 ^ 192 < 18446744073709551616 := by
    intro n
    have h := reportDigest_lt (c2ReportFamily n)
    have h2 : (18446744073709551616 : ℕ) * 2 ^ 192 = 2 ^ 256 := by norm_num
    exact (Nat.div_lt_iff_lt_mul (by positivity)).mpr (by rw [h2]; exact h)
  obtain ⟨m, n, hmn, hfeq⟩ := Finite.exists_ne_map_eq_of_infinite
    (fun k : ℕ => (⟨reportDigest (c2ReportFamily k) / 2 ^ 192, hbound k⟩ :
      Fin 18446744073709551616))
  refine hinj (c2ReportFamily m) (c2ReportFamily n)
    (Or.inr (Or.inr (Or.inl ?_))) ?_
  · simpa [c2ReportFamily] using hmn
  · show ComputeReportHash (c2ReportFamily m) = ComputeReportHash (c2ReportFamily n)
    unfold ComputeReportHash
    exact congrArg String.mk
      (toHex64Chars_take16_congr _ _ (congrArg Fin.val hfeq))

end Detective
